import Mathlib

/-!
# Rufus standard dialog routines (`src/stdlg.c`)

A shallow embedding of two pieces of `stdlg.c`:

* the tooltip registry (`ttlist`, `CreateTooltip`, `DestroyTooltip`,
  `DestroyAllTooltips`), as pure functions on the table;
* the dialog template loader/patcher (`GetDialogTemplate`), as a function on
  the bytes of the loaded resource copy.

Handles and pointers are natural numbers with `0` for `NULL`; strings that are
owned through a pointer are `Option`s, `none` being `NULL`.
-/

namespace Rufus

/-! ## Tooltip registry -/

/-- Window handle; `0` is `NULL`. -/
abbrev HWND := Nat

/-- Window procedure pointer; `0` is `NULL`. -/
abbrev WNDPROC := Nat

/-- Pointer to an owned wide string: `none` is `NULL`, `some w` points to the
UTF-16 code units `w`. -/
abbrev LPWSTR := Option (List Nat)

/-- One element of the static array `ttlist` (stdlg.c, lines 957-962). -/
structure TooltipSlot where
  /-- Tooltip handle. -/
  hTip : HWND
  /-- Handle of the control the tooltip belongs to. -/
  hCtrl : HWND
  original_proc : WNDPROC
  wstring : LPWSTR
deriving DecidableEq, Repr

/-- The array `ttlist`; its length is the constant `MAX_TOOLTIPS` of `rufus.h`,
which is not part of the sources at hand and is therefore left free. -/
abbrev Table := List TooltipSlot

/-- Number of slots of the table, the `MAX_TOOLTIPS` of the source. -/
def MAX_TOOLTIPS (ttlist : Table) : Nat := ttlist.length

/-- The all-zero slot of the initialiser `{ {0} }`. -/
def zeroSlot : TooltipSlot :=
  { hTip := 0, hCtrl := 0, original_proc := 0, wstring := none }

/-- The table as initialised at program start: `ttlist[MAX_TOOLTIPS] = { {0} }`. -/
def emptyTable (maxTooltips : Nat) : Table := List.replicate maxTooltips zeroSlot

/-- Modelled from the spec: the `safe_free` macro of `rufus.h`, which is not
among the sources. The entry is "fully released" on detach: the buffer is freed
and the pointer that held it reads `NULL` afterwards. -/
def safe_free (_p : LPWSTR) : LPWSTR := none

/-- Assignment to fields of `ttlist[i]`. -/
def store (ttlist : Table) (i : Nat) (f : TooltipSlot → TooltipSlot) : Table :=
  ttlist.set i (f (ttlist.getD i zeroSlot))

/-- The loops `for (i=0; i<MAX_TOOLTIPS; i++) if (cond(ttlist[i])) break;`:
the value of `i` after the loop, which is `MAX_TOOLTIPS` when no slot
satisfies the condition. -/
def scan (ttlist : Table) (cond : TooltipSlot → Bool) : Nat :=
  ttlist.findIdx cond

/-- The function `DestroyTooltip` (stdlg.c, lines 1059-1073). -/
def DestroyTooltip (ttlist : Table) (hControl : HWND) : Table :=
  if hControl = 0 then ttlist
  else
    let i := scan ttlist (fun s => s.hCtrl == hControl)
    if i ≥ MAX_TOOLTIPS ttlist then ttlist
    else
      -- DestroyWindow(ttlist[i].hTip) acts on the window only
      let t1 := store ttlist i (fun s => { s with wstring := safe_free s.wstring })
      let t2 := store t1 i (fun s => { s with original_proc := 0 })
      let t3 := store t2 i (fun s => { s with hTip := 0 })
      store t3 i (fun s => { s with hCtrl := 0 })

/-- Body of the loop of `DestroyAllTooltips` for one slot. -/
def destroySlot (s : TooltipSlot) : TooltipSlot :=
  if s.hTip = 0 then s
  else
    let s1 := { s with wstring := safe_free s.wstring }
    let s2 := { s1 with original_proc := 0 }
    let s3 := { s2 with hTip := 0 }
    { s3 with hCtrl := 0 }

/-- The function `DestroyAllTooltips` (stdlg.c, lines 1075-1088): the loop
visits every index once and only touches the slot it visits. -/
def DestroyAllTooltips (ttlist : Table) : Table :=
  ttlist.map destroySlot

/-- Answers of the host during one call of `CreateTooltip`. -/
structure TooltipHost where
  /-- Handle returned by `CreateWindowEx`, `0` when the window cannot be created. -/
  CreateWindowEx : HWND
  /-- Previous window procedure, returned by `SetWindowLongPtr`. -/
  SetWindowLongPtr : WNDPROC
  /-- Conversion of the UTF-8 message to an owned wide string (`msapi_utf8.h`,
  not among the sources); `none` when the conversion or its allocation fails. -/
  utf8_to_wchar : String → LPWSTR

/-- The function `CreateTooltip` (stdlg.c, lines 1002-1056): the returned
`BOOL` and the table after the call. `message` is `none` for `NULL`. -/
def CreateTooltip (host : TooltipHost) (ttlist : Table) (hControl : HWND)
    (message : Option String) (_duration : Int) : Bool × Table :=
  match message with
  | none => (false, ttlist)
  | some msg =>
    if hControl = 0 then (false, ttlist)
    else
      -- Destroy existing tooltip if any
      let t0 := DestroyTooltip ttlist hControl
      -- Find an empty slot
      let i := scan t0 (fun s => s.hTip == 0)
      if i ≥ MAX_TOOLTIPS t0 then (false, t0)
      else
        let t1 := store t0 i (fun s => { s with hTip := host.CreateWindowEx })
        if (t1.getD i zeroSlot).hTip = 0 then (false, t1)
        else
          let t2 := store t1 i (fun s => { s with hCtrl := hControl })
          let t3 := store t2 i (fun s => { s with original_proc := host.SetWindowLongPtr })
          let t4 := store t3 i (fun s => { s with wstring := host.utf8_to_wchar msg })
          (true, t4)

/-- One call into the registry. -/
inductive TooltipCall where
  | create (host : TooltipHost) (hControl : HWND) (message : Option String) (duration : Int)
  | destroy (hControl : HWND)
  | destroyAll

/-- Table after one call. -/
def TooltipCall.apply (ttlist : Table) : TooltipCall → Table
  | .create host hControl message duration =>
      (CreateTooltip host ttlist hControl message duration).2
  | .destroy hControl => DestroyTooltip ttlist hControl
  | .destroyAll => DestroyAllTooltips ttlist

/-- Table after a sequence of calls, from left to right. -/
def runCalls (ttlist : Table) (calls : List TooltipCall) : Table :=
  calls.foldl TooltipCall.apply ttlist

/-- Tables the program can be in: those obtained from the initial table by
some sequence of calls. -/
def Reachable (ttlist : Table) : Prop :=
  ∃ (n : Nat) (calls : List TooltipCall), runCalls (emptyTable n) calls = ttlist

/-- A slot is occupied when it holds a tooltip handle. -/
def occupied (s : TooltipSlot) : Bool := s.hTip != 0

/-- Number of occupied slots. -/
def occupiedCount (ttlist : Table) : Nat := ttlist.countP occupied

/-- A slot is either the all-zero slot or holds both a tooltip handle and a
control. -/
def SlotOK (s : TooltipSlot) : Prop :=
  (s.hTip = 0 → s = zeroSlot) ∧ (s.hTip ≠ 0 → s.hCtrl ≠ 0)

/-- Every slot of the table is all-zero or fully filled. -/
def Consistent (ttlist : Table) : Prop := ∀ s ∈ ttlist, SlotOK s

/-- No control is held by two slots. -/
def UniqueControls (ttlist : Table) : Prop :=
  ∀ (i j : Nat) (hi : i < ttlist.length) (hj : j < ttlist.length),
    ttlist[i].hCtrl ≠ 0 → ttlist[i].hCtrl = ttlist[j].hCtrl → i = j

/-- One request to attach a tooltip: the host answers and the arguments of the
`CreateTooltip` call, the message being a string (not `NULL`). -/
structure Attach where
  host : TooltipHost
  hControl : HWND
  message : String
  duration : Int

/-- Slot content written by a successful `CreateTooltip` for the request. -/
def Attach.slot (a : Attach) : TooltipSlot :=
  { hTip := a.host.CreateWindowEx, hCtrl := a.hControl,
    original_proc := a.host.SetWindowLongPtr, wstring := a.host.utf8_to_wchar a.message }

/-- Successive `CreateTooltip` calls for a list of requests: the values
returned, in order, and the table after the last call. -/
def attachAll (ttlist : Table) : List Attach → List Bool × Table
  | [] => ([], ttlist)
  | a :: rest =>
      let r := CreateTooltip a.host ttlist a.hControl (some a.message) a.duration
      let rs := attachAll r.2 rest
      (r.1 :: rs.1, rs.2)

/-- A host whose window creation succeeds with handle `hTip`. -/
def sampleHost (hTip : HWND) : TooltipHost :=
  { CreateWindowEx := hTip, SetWindowLongPtr := 7, utf8_to_wchar := fun _ => some [72, 105] }

/-- A table of two slots, both occupied, for the controls 1 and 2. -/
def sampleFullTable : Table :=
  [{ hTip := 10, hCtrl := 1, original_proc := 5, wstring := some [65] },
   { hTip := 11, hCtrl := 2, original_proc := 6, wstring := none }]

/-- Two attach calls on a table of three slots. -/
def sampleCalls : List TooltipCall :=
  [.create (sampleHost 20) 5 (some "a") (-1), .create (sampleHost 21) 6 (some "b") (-1)]

/-- Thirty-two requests for the controls 1 to 32. -/
def sampleRequests : List Attach :=
  (List.range 32).map (fun k =>
    { host := sampleHost (100 + k), hControl := k + 1, message := "tip", duration := -1 })

/-! ## Dialog template loader/patcher -/

/-- Bytes of a buffer, lowest address first. -/
abbrev Buffer := List Nat

/-- Extended window style `WS_EX_APPWINDOW` of the Windows SDK. -/
def WS_EX_APPWINDOW : Nat := 0x00040000

/-- Extended window style `WS_EX_LAYOUTRTL` of the Windows SDK. -/
def WS_EX_LAYOUTRTL : Nat := 0x00400000

/-- Read of the `WCHAR` (16 bit, little endian) at word index `i` of the buffer;
`none` when the read is not inside the buffer. -/
def readW (b : Buffer) (i : Nat) : Option Nat :=
  if 2 * i + 1 < b.length then some (b.getD (2 * i) 0 + 256 * b.getD (2 * i + 1) 0)
  else none

/-- Write of the `WCHAR` `v` at word index `i`; `none` when outside the buffer. -/
def writeW (b : Buffer) (i : Nat) (v : Nat) : Option Buffer :=
  if 2 * i + 1 < b.length then
    some ((b.set (2 * i) (v % 256)).set (2 * i + 1) (v / 256 % 256))
  else none

/-- Read of the `DWORD` (32 bit, little endian) at dword index `i`. -/
def readDW (b : Buffer) (i : Nat) : Option Nat :=
  if 4 * i + 3 < b.length then
    some (b.getD (4 * i) 0 + 256 * b.getD (4 * i + 1) 0
      + 65536 * b.getD (4 * i + 2) 0 + 16777216 * b.getD (4 * i + 3) 0)
  else none

/-- Write of the `DWORD` `v` at dword index `i`; `none` when outside the buffer. -/
def writeDW (b : Buffer) (i : Nat) (v : Nat) : Option Buffer :=
  if 4 * i + 3 < b.length then
    some ((((b.set (4 * i) (v % 256)).set (4 * i + 1) (v / 256 % 256)).set
      (4 * i + 2) (v / 65536 % 256)).set (4 * i + 3) (v / 16777216 % 256))
  else none

/-- Length of the wide string that starts with the given bytes: number of
`WCHAR`s before the first zero one; `none` when the bytes end before a
terminator is met. -/
def wcslenFrom : List Nat → Option Nat
  | lo :: hi :: rest =>
      if lo + 256 * hi = 0 then some 0 else (wcslenFrom rest).map (· + 1)
  | _ => none

/-- The call `wcslen(&wBuf[i])`, `i` a word index from the start of the buffer. -/
def wcslen (b : Buffer) (i : Nat) : Option Nat := wcslenFrom (b.drop (2 * i))

/-- The test `wcscmp(lit, &wBuf[i]) == 0` for a literal `lit` given by its
characters before the terminator: `none` when the comparison reads outside the
buffer. -/
def wcscmpEq (b : Buffer) (i : Nat) : List Nat → Option Bool
  | [] => (readW b i).map (fun w => w == 0)
  | c :: cs =>
      match readW b i with
      | none => none
      | some w => if w = c then wcscmpEq b (i + 1) cs else some false

/-- The literal `L"Segoe UI Symbol"`, without its terminator. -/
def SegoeUISymbol : List Nat :=
  [83, 101, 103, 111, 101, 32, 85, 73, 32, 83, 121, 109, 98, 111, 108]

/-- The name `Segoe UI`, without terminator. -/
def SegoeUI : List Nat := [83, 101, 103, 111, 101, 32, 85, 73]

/-- One round of the loop that skips class name and title (lines 1375-1380):
the word index after the field that starts at word index `i`. -/
def skipField (b : Buffer) (i : Nat) : Option Nat :=
  match readW b i with
  | none => none
  | some w =>
      if w = 0xFFFF then some (i + 2)           -- Ordinal
      else (wcslen b i).map (fun n => i + n + 1)  -- String

/-- Word index of the typeface string as located by lines 1372-1383. -/
def typefaceIndex (b : Buffer) : Option Nat :=
  match skipField b 14 with
  | none => none
  | some i1 =>
      match skipField b i1 with
      | none => none
      | some i2 => some (i2 + 3)

/-- The operation `p &= ~3` on an address. -/
def alignDown4 (p : Nat) : Nat := p - p % 4

/-- The call `memmove(dst, src, n)` with `dst` and `src` given as offsets into
the buffer; `none` when one of the two ranges is not inside the buffer. -/
def memmove (b : Buffer) (dst src n : Nat) : Option Buffer :=
  if src + n ≤ b.length ∧ dst + n ≤ b.length then
    some (b.take dst ++ (b.drop src).take n ++ b.drop (dst + n))
  else none

/-- Arguments of the `memmove` of line 1398, as offsets from the start of the
buffer and a byte count: `(dst - start, src - start, size - (src - start))`,
the count being computed on `uintptr_t` (64 bit). `i` is the word index of the
typeface and `len` the value of `wcslen(wBuf)` at line 1392. -/
def moveArgs (start size i len : Nat) : Nat × Nat × Nat :=
  let dst := alignDown4 (start + 2 * (i + len + 2))
  let src := alignDown4 (start + 2 * (i + 17))
  (dst - start, src - start, (size + 2 ^ 64 - (src - start)) % 2 ^ 64)

/-- The branch taken when the typeface is `Segoe UI Symbol` (lines 1386-1398),
up to the `memmove`: the buffer after the two stores and the arguments of the
`memmove`. -/
def fontStores (start size : Nat) (b : Buffer) (i : Nat) :
    Option (Buffer × Nat × Nat × Nat) :=
  match writeW b (i + 8) 0 with
  | none => none
  | some b1 =>
      match wcslen b1 i with
      | none => none
      | some len =>
          match writeW b1 (i + len + 1) 0 with
          | none => none
          | some b2 => some (b2, moveArgs start size i len)

/-- The font substitution of `GetDialogTemplate` (lines 1372-1402) on the
buffer at address `start` whose reported size is `size`; `none` when an access
falls outside the buffer. -/
def fontPatch (start size : Nat) (b : Buffer) : Option Buffer :=
  match typefaceIndex b with
  | none => none
  | some i =>
      match wcscmpEq b i SegoeUISymbol with
      | none => none
      | some true =>
          match fontStores start size b i with
          | none => none
          | some (b2, dst, src, n) => memmove b2 dst src n
      | some false => some b  -- only logs "Could not locate font"

/-- Result of `GetResource(..., &size, TRUE)`: the pointer to the copy (`none`
for `NULL`, otherwise its address and content) and the size it reports. -/
structure LoadedResource where
  rcTemplate : Option (Nat × Buffer)
  size : Nat

/-- Globals and host answers read by `GetDialogTemplate`. -/
structure DialogEnv where
  right_to_left_mode : Bool
  /-- Value of `IsFontAvailable("Segoe UI Symbol")`. -/
  fontAvailable : Bool
  /-- The global `selected_locale` (`none` for `NULL`) reduced to its field
  `txt[0]` (`none` for `NULL`). -/
  selected_locale : Option (Option String)

/-- The test `safe_strcmp(selected_locale->txt[0], thai_id) == 0` together with
`selected_locale != NULL`; a `NULL` string compares as `"<NULL>"`. -/
def isThai (env : DialogEnv) : Bool :=
  match env.selected_locale with
  | some (some s) => s == "th-TH"
  | _ => false

/-- The function `GetDialogTemplate` (stdlg.c, lines 1340-1403). The outer
`none` stands for an access outside the buffer; inside, `none` is the `NULL`
return and `some b` the returned template with content `b`. -/
def GetDialogTemplate (env : DialogEnv) (res : LoadedResource) : Option (Option Buffer) :=
  match res.rcTemplate with
  | none => some none
  | some (start, b) =>
      if res.size = 0 then some none
      else
        match (if env.right_to_left_mode then
                 writeDW b 2 (WS_EX_APPWINDOW ||| WS_EX_LAYOUTRTL)
               else some b) with
        | none => none
        | some b1 =>
            if env.fontAvailable && isThai env then some (some b1)
            else (fontPatch start res.size b1).map some

/-- Bytes of a wide string: each `WCHAR` low byte first. -/
def wbytes (ws : List Nat) : List Nat :=
  ws.flatMap (fun w => [w % 256, w / 256 % 256])

/-- First multiple of 4 at or after `n`. -/
def alignUp4 (n : Nat) : Nat := (n + 3) / 4 * 4

/-- The wide string `name`, followed by a terminator, sits at word index `i` of
the buffer. -/
def wideStringAt (b : Buffer) (i : Nat) (name : List Nat) : Prop :=
  (∀ (k : Nat) (hk : k < name.length), readW b (i + k) = some name[k]) ∧
    readW b (i + name.length) = some 0

instance wideStringAt.decidable (b : Buffer) (i : Nat) (name : List Nat) :
    Decidable (wideStringAt b i name) := by
  unfold wideStringAt
  infer_instance

/-- Fixed part of an extended dialog template (26 bytes): version 1, signature
`0xFFFF`, help id 0, extended style `0x10` (`WS_EX_ACCEPTFILES`), style
`0x80C800C8`, the given number of items, and the rectangle 0, 0, 100, 50. -/
def sampleHeader (items : Nat) : Buffer :=
  [1, 0, 0xFF, 0xFF, 0, 0, 0, 0, 0x10, 0, 0, 0, 0xC8, 0, 0xC8, 0x80, items, 0,
   0, 0, 0, 0, 100, 0, 50, 0]

/-- An 80 byte template: no menu, no class, title `A`, font 9 pt weight 400,
typeface `Segoe UI Symbol` at word index 20, then 8 bytes of item data. -/
def sampleTemplate : Buffer :=
  sampleHeader 1 ++ [0, 0] ++ [0, 0] ++ wbytes [65, 0] ++ wbytes [9, 400, 256]
    ++ wbytes (SegoeUISymbol ++ [0]) ++ [1, 2, 3, 4, 5, 6, 7, 8]

/-- An 80 byte template with an empty title: typeface `Segoe UI Symbol` at word
index 19, two bytes of padding, then 8 bytes of item data. -/
def sampleTemplateOdd : Buffer :=
  sampleHeader 1 ++ [0, 0] ++ [0, 0] ++ wbytes [0] ++ wbytes [9, 400, 256]
    ++ wbytes (SegoeUISymbol ++ [0]) ++ [0, 0] ++ [1, 2, 3, 4, 5, 6, 7, 8]

/-- A 70 byte template without items and with an empty title: it ends with the
terminator of the typeface `Segoe UI Symbol`, which sits at word index 19. -/
def sampleTemplateBare : Buffer :=
  sampleHeader 0 ++ [0, 0] ++ [0, 0] ++ wbytes [0] ++ wbytes [9, 400, 256]
    ++ wbytes (SegoeUISymbol ++ [0])

/-- Globals with the given right-to-left mode, the font `Segoe UI Symbol` not
installed and no locale selected. -/
def sampleEnv (rtl : Bool) : DialogEnv :=
  { right_to_left_mode := rtl, fontAvailable := false, selected_locale := none }

/-- The copy of a resource loaded at address 0 and reported with its length. -/
def sampleResource (b : Buffer) : LoadedResource :=
  { rcTemplate := some (0, b), size := b.length }

/-- A template whose typeface is `Arial`. -/
def sampleTemplateArial : Buffer :=
  sampleHeader 1 ++ [0, 0] ++ [0, 0] ++ wbytes [65, 0] ++ wbytes [9, 400, 256]
    ++ wbytes [65, 114, 105, 97, 108, 0] ++ [1, 2, 3, 4, 5, 6, 7, 8]

/-- A string of exactly `n` non-zero `WCHAR`s followed by a terminator starts at
word index `j`. -/
def stringOfLength (b : Buffer) (j n : Nat) : Prop :=
  (∀ k, k < n → (readW b (j + k)).isSome = true ∧ readW b (j + k) ≠ some 0) ∧
    readW b (j + n) = some 0

instance stringOfLength.decidable (b : Buffer) (j n : Nat) :
    Decidable (stringOfLength b j n) := by
  unfold stringOfLength
  infer_instance

/-- The size `s(field)` of a header field that starts at word index `j`, in the
words of the description of the header walk: 2 when the first word of the field
is `0xFFFF` (an ordinal), otherwise the length of the terminated string plus 1. -/
def fieldHasSize (b : Buffer) (j s : Nat) : Prop :=
  (readW b j = some 0xFFFF ∧ s = 2) ∨
    (readW b j ≠ some 0xFFFF ∧ 1 ≤ s ∧ stringOfLength b j (s - 1))

instance fieldHasSize.decidable (b : Buffer) (j s : Nat) :
    Decidable (fieldHasSize b j s) := by
  unfold fieldHasSize
  infer_instance

/-- The buffer after the right-to-left step of `GetDialogTemplate` (lines
1355-1359); `none` when the store falls outside the buffer. -/
def rtlStep (env : DialogEnv) (b : Buffer) : Option Buffer :=
  if env.right_to_left_mode then writeDW b 2 (WS_EX_APPWINDOW ||| WS_EX_LAYOUTRTL) else some b

/-- Globals with the font `Segoe UI Symbol` installed and the Thai locale
selected. -/
def sampleEnvThai (rtl : Bool) : DialogEnv :=
  { right_to_left_mode := rtl, fontAvailable := true, selected_locale := some (some "th-TH") }

/-- A template whose typeface is already `Segoe UI`, at word index 20. -/
def sampleTemplateSegoeUI : Buffer :=
  sampleHeader 1 ++ [0, 0] ++ [0, 0] ++ wbytes [65, 0] ++ wbytes [9, 400, 256]
    ++ wbytes (SegoeUI ++ [0]) ++ [0, 0] ++ [1, 2, 3, 4, 5, 6, 7, 8]

/-- A template whose class is given by the ordinal 5: typeface at word index 21. -/
def sampleTemplateOrdinal : Buffer :=
  sampleHeader 1 ++ [0, 0] ++ wbytes [0xFFFF, 5] ++ wbytes [65, 0] ++ wbytes [9, 400, 256]
    ++ wbytes (SegoeUISymbol ++ [0]) ++ [0, 0] ++ [1, 2, 3, 4, 5, 6, 7, 8]

/-! ## Tooltip callback -/

/-- Window message `WM_NOTIFY` of the Windows SDK. -/
def WM_NOTIFY : Nat := 0x004E

/-- Notification code `TTN_GETDISPINFOW` of the Windows SDK, `(0U-520U) - 10`. -/
def TTN_GETDISPINFOW : Nat := 0xFFFFFDEE

/-- Flag `TTF_RTLREADING` of the Windows SDK. -/
def TTF_RTLREADING : Nat := 0x0004

/-- The fields of the `NMTTDISPINFOW` that `lParam` points to which the
callback reads or writes: the notification code of its header, the text
pointer and the flags (a `UINT`). -/
structure NMTTDISPINFOW where
  code : Nat
  lpszText : LPWSTR
  uFlags : Nat
deriving DecidableEq, Repr

/-- What one call of `TooltipCallback` does. -/
inductive TooltipAnswer where
  /-- The handle is not in the table: `return (INT_PTR)FALSE`. -/
  | notFound
  /-- The display-info query is answered: the structure behind `lParam` after
  the call; `return (INT_PTR)TRUE`. -/
  | answered (info : NMTTDISPINFOW)
  /-- The message is passed on: `return CallWindowProc(proc, ...)`. -/
  | delegated (proc : WNDPROC)
deriving DecidableEq, Repr

/-- The function `TooltipCallback` (stdlg.c, lines 964-995). `lParam` is only
looked at when the message is `WM_NOTIFY`; the `TTM_SETMAXTIPWIDTH` message
sent while answering the query is a message of its own and is not recorded. -/
def TooltipCallback (ttlist : Table) (hDlg : HWND) (message : Nat) (lParam : NMTTDISPINFOW) :
    TooltipAnswer :=
  -- Make sure we have an original proc
  let i := scan ttlist (fun s => s.hTip == hDlg)
  if i = MAX_TOOLTIPS ttlist then .notFound
  else if message = WM_NOTIFY ∧ lParam.code = TTN_GETDISPINFOW then
    .answered { lParam with
      lpszText := (ttlist.getD i zeroSlot).wstring
      uFlags := lParam.uFlags &&& (0xFFFFFFFF ^^^ TTF_RTLREADING) }
  else .delegated (ttlist.getD i zeroSlot).original_proc

/-! ## Selection and list dialogs -/

/-- Value of a 32 bit pattern read as an `int`. -/
def toInt32 (x : Nat) : Int :=
  if x % 2 ^ 32 < 2 ^ 31 then ((x % 2 ^ 32 : Nat) : Int) else ((x % 2 ^ 32 : Nat) : Int) - 2 ^ 32

/-- Bit pattern (32 bit, two's complement) of an `int`. -/
def ofInt32 (x : Int) : Nat := (x % 2 ^ 32).toNat

/-- The statement `m <<= 1` on the bit pattern of an `int`. -/
def shl32 (m : Nat) : Nat := (m * 2) % 2 ^ 32

/-- The statement `r += m` on bit patterns of `int`s. -/
def add32 (r m : Nat) : Nat := (r + m) % 2 ^ 32

/-- Command identifier `IDOK` of the Windows SDK. -/
def IDOK : Nat := 1

/-- Command identifier `IDCANCEL` of the Windows SDK. -/
def IDCANCEL : Nat := 2

/-- Command identifier `IDNO` of the Windows SDK. -/
def IDNO : Nat := 7

/-- The guard at the start of `WM_INITDIALOG` in `CustomSelectionCallback`
(lines 669-674) and in `ListCallback` (lines 857-862): the value of
`nDialogItems` after it. `first` and `last` are the identifiers of the first
and of the last item control (`IDC_SELECTION_CHOICE1`, `IDC_SELECTION_CHOICEMAX`,
respectively `IDC_LIST_ITEM1`, `IDC_LIST_ITEMMAX`, from `resource.h`, which is
not among the sources). -/
def clampItems (first last nDialogItems : Int) : Int :=
  if nDialogItems > (last - first + 1) then last - first else nDialogItems

/-- The loop "Set the default selection" (lines 770-772), `k` rounds from index
`i` with the mask bit `m`: the check state of the choice controls after it.
`mask` is the bit pattern of `selection_dialog_mask`. -/
def setChecks (mask : Nat) : Nat → Nat → Nat → (Nat → Bool) → (Nat → Bool)
  | 0, _, _, checked => checked
  | k + 1, i, m, checked =>
      setChecks mask k (i + 1) (shl32 m) (Function.update checked i (m &&& mask != 0))

/-- The loop of the `IDOK` case (lines 793-795), `k` rounds from index `i` with
the mask bit `m` and the accumulator `r`: the bit pattern of `r` after it. -/
def readChecks (checked : Nat → Bool) : Nat → Nat → Nat → Nat → Nat
  | 0, _, _, r => r
  | k + 1, i, m, r => readChecks checked k (i + 1) (shl32 m) (if checked i then add32 r m else r)

/-- What the selection dialog keeps between messages: the global
`nDialogItems` and the check state of the control `IDC_SELECTION_CHOICE1 + i`
for each `i`. -/
structure SelectionState where
  nDialogItems : Int
  checked : Nat → Bool

/-- The `WM_INITDIALOG` case of `CustomSelectionCallback` (lines 668-773), as
far as the item count and the check states go. -/
def CustomSelectionCallback_INITDIALOG (IDC_SELECTION_CHOICE1 IDC_SELECTION_CHOICEMAX : Int)
    (selection_dialog_mask : Int) (s : SelectionState) : SelectionState :=
  let n := clampItems IDC_SELECTION_CHOICE1 IDC_SELECTION_CHOICEMAX s.nDialogItems
  { nDialogItems := n
    checked := setChecks (ofInt32 selection_dialog_mask) n.toNat 0 1 s.checked }

/-- The `WM_COMMAND` case of `CustomSelectionCallback` (lines 790-810): the
value given to `EndDialog`, `none` when the command does not end the dialog.
The user name handling of the `IDOK` case does not touch `r`. -/
def CustomSelectionCallback_COMMAND (s : SelectionState) (id : Nat) : Option Int :=
  if id = IDOK then some (toInt32 (readChecks s.checked s.nDialogItems.toNat 0 1 0))
  else if id = IDNO ∨ id = IDCANCEL then some (-1)
  else none

/-- The function `CustomSelectionDialog` (lines 818-835) for a dialog that is
created, initialised, operated by the user and closed by the command `id`:
`user` is what the user does to the check states in between, `checked0` the
check states the controls are created with. `none` when `id` does not close
the dialog. -/
def CustomSelectionDialog (IDC_SELECTION_CHOICE1 IDC_SELECTION_CHOICEMAX : Int)
    (size mask : Int) (checked0 : Nat → Bool) (user : (Nat → Bool) → (Nat → Bool))
    (id : Nat) : Option Int :=
  let s := CustomSelectionCallback_INITDIALOG IDC_SELECTION_CHOICE1 IDC_SELECTION_CHOICEMAX
    mask { nDialogItems := size, checked := checked0 }
  CustomSelectionCallback_COMMAND { s with checked := user s.checked } id

/-- The `WM_INITDIALOG` case of `ListCallback` (lines 856-913), as far as the
item count goes: the value of `nDialogItems` after it. -/
def ListCallback_INITDIALOG (IDC_LIST_ITEM1 IDC_LIST_ITEMMAX : Int) (nDialogItems : Int) : Int :=
  clampItems IDC_LIST_ITEM1 IDC_LIST_ITEMMAX nDialogItems

/-- A selection dialog showing three choices, the first and the third checked. -/
def sampleSelection : SelectionState :=
  { nDialogItems := 3, checked := fun i => i == 0 || i == 2 }

/-! ## Taskbar progress -/

/-- The macro `FAILED` of the Windows SDK on an `HRESULT`. -/
def FAILED (hr : Int) : Bool := decide (hr < 0)

/-- The function `CreateTaskbarList` (lines 1136-1147): the value returned and
the global `ptbl` after the call. `hr` is what `CoCreateInstance` returns and
`ppv` the interface pointer it stores into `ptbl`. -/
def CreateTaskbarList (hr : Int) (ppv : Nat) : Bool × Nat :=
  let ptbl := ppv
  if FAILED hr then (false, 0) else (true, ptbl)

/-- The function `SetTaskbarProgressState` (lines 1149-1154): the value
returned and the arguments of the interface call, `none` when no call is
made. `SetProgressState` is the method of the interface. -/
def SetTaskbarProgressState (ptbl : Nat) (hMainDialog : HWND)
    (SetProgressState : Nat → HWND → Nat → Int) (tbpFlags : Nat) :
    Bool × Option (Nat × HWND × Nat) :=
  if ptbl = 0 then (false, none)
  else (!FAILED (SetProgressState ptbl hMainDialog tbpFlags), some (ptbl, hMainDialog, tbpFlags))

/-- The function `SetTaskbarProgressValue` (lines 1156-1161), as
`SetTaskbarProgressState`. -/
def SetTaskbarProgressValue (ptbl : Nat) (hMainDialog : HWND)
    (SetProgressValue : Nat → HWND → Nat → Nat → Int) (ullCompleted ullTotal : Nat) :
    Bool × Option (Nat × HWND × Nat × Nat) :=
  if ptbl = 0 then (false, none)
  else (!FAILED (SetProgressValue ptbl hMainDialog ullCompleted ullTotal),
    some (ptbl, hMainDialog, ullCompleted, ullTotal))

/-! ## User name of the selection dialog -/

/-- The literal `username_invalid_chars` (line 651), `/\[]:;|=,+*?<>"`, as
character codes without its terminator. -/
def username_invalid_chars : List Nat :=
  [47, 92, 91, 93, 58, 59, 124, 61, 44, 43, 42, 63, 60, 62, 34]

/-- The test `strchr(s, ch) != NULL` for a string `s` given without its
terminator: the terminator itself is found too. -/
def strchrFound (s : List Nat) (ch : Nat) : Bool := s.contains ch || ch == 0

/-- The sanitization loop of the `IDOK` case (lines 799-802) on the content of
the array `unattend_username`, taken from the index the loop has reached:
`none` when the array holds no terminator. -/
def sanitizeUsername : List Nat → Option (List Nat)
  | [] => none
  | ch :: rest =>
      if ch = 0 then some (ch :: rest)
      else (sanitizeUsername rest).map
        (fun r => (if strchrFound username_invalid_chars ch then 95 else ch) :: r)

/-- The user name part of the `IDOK` case (lines 796-803): the array
`unattend_username` after it. `windowText` is the array as `GetWindowTextU`
(`msapi_utf8.h`, not among the sources) leaves it: the text of the edit control
followed by a terminator. -/
def CustomSelectionCallback_username (selection_dialog_username_index : Int)
    (windowText unattend_username : List Nat) : Option (List Nat) :=
  if selection_dialog_username_index ≠ -1 then sanitizeUsername windowText
  else some unattend_username

/-- The replacement of one character as the description of the sanitization
has it: a character of the set becomes `_`, any other is kept. -/
def replaceInvalid (ch : Nat) : Nat := if ch ∈ username_invalid_chars then 95 else ch

/-! ## Notification dialog and the counter of dialogs being shown -/

/-- Command identifier `IDYES` of the Windows SDK. -/
def IDYES : Nat := 6

/-- The `WM_COMMAND` case of `NotificationCallback` (lines 564-586) for the
command `id`: the value given to `EndDialog` (`none` when the dialog is not
ended) and the settings written with `WriteSettingBool`, name and value.
`checked` is the state of the box `IDC_DONT_DISPLAY_AGAIN`;
`SETTING_DISABLE_SECURE_BOOT_NOTICE` is a string constant of `settings.h`,
which is not among the sources. -/
def NotificationCallback_COMMAND (SETTING_DISABLE_SECURE_BOOT_NOTICE : String)
    (id : Nat) (checked : Bool) : Option Int × List (String × Bool) :=
  if id = IDOK ∨ id = IDCANCEL ∨ id = IDYES ∨ id = IDNO then
    (some (id : Int), if checked then [(SETTING_DISABLE_SECURE_BOOT_NOTICE, true)] else [])
  else (none, [])

/-- What a call of `Notification` leaves behind. -/
structure NotificationResult where
  /-- The `BOOL` returned. -/
  ret : Bool
  /-- The global counter `dialog_showing` on return. -/
  dialog_showing : Int
  /-- The global `notification_dont_display_setting` on return. -/
  notification_dont_display_setting : Option String
  /-- The settings written while the dialog was shown. -/
  written : List (String × Bool)

/-- The function `Notification` (lines 594-638) for a dialog that, once shown,
is dismissed by the command `id` with the box "don't display again" in the
state `checked`. `mallocOk` and `strdupOk` tell whether the two allocations
succeed, `title` is `none` for `NULL`, `setting0` is the value of the global
`notification_dont_display_setting` on entry. The notification type only
selects the icon and whether the dialog is a question. -/
def Notification (SETTING_DISABLE_SECURE_BOOT_NOTICE : String) (dialog_showing : Int)
    (setting0 : Option String) (mallocOk strdupOk : Bool)
    (_type : Int) (dont_display_setting : Option String) (title : Option String)
    (id : Nat) (checked : Bool) : NotificationResult :=
  let showing := dialog_showing + 1
  if !mallocOk then
    { ret := false, dialog_showing := showing, notification_dont_display_setting := setting0,
      written := [] }
  else
    -- safe_strdup(title) is NULL for a NULL title or when the copy cannot be allocated
    let szMessageTitle : Option String := if strdupOk then title else none
    if szMessageTitle.isNone then
      { ret := false, dialog_showing := showing, notification_dont_display_setting := setting0,
        written := [] }
    else
      let r := NotificationCallback_COMMAND SETTING_DISABLE_SECURE_BOOT_NOTICE id checked
      { ret := decide (r.1 = some (IDYES : Int)),
        dialog_showing := showing - 1,
        notification_dont_display_setting := dont_display_setting,
        written := r.2 }

/-- The counter `dialog_showing` after `CreateAboutBox` (lines 435-442). -/
def CreateAboutBox_showing (dialog_showing : Int) : Int :=
  let showing := dialog_showing + 1
  -- r = MyDialogBox(...)
  showing - 1

/-- The counter `dialog_showing` after `CustomSelectionDialog` (lines 818-835). -/
def CustomSelectionDialog_showing (dialog_showing : Int) : Int :=
  let showing := dialog_showing + 1
  showing - 1

/-- The counter `dialog_showing` after `ListDialog` (lines 946-955). -/
def ListDialog_showing (dialog_showing : Int) : Int :=
  let showing := dialog_showing + 1
  showing - 1

/-- The counter `dialog_showing` after `FileDialog` (lines 79-197). `extValid`
is the outcome of the argument check of line 90, `callocOk` that of the
allocation of the filter table, `hrCreate` and `pfdNull` what `CoCreateInstance`
answers; all later host calls end at the label `out`. -/
def FileDialog_showing (dialog_showing : Int) (extValid callocOk : Bool) (hrCreate : Int)
    (pfdNull : Bool) : Int :=
  if !extValid then dialog_showing
  else if !callocOk then dialog_showing
  else
    let showing := dialog_showing + 1
    -- RUFUS_ERROR(ERROR_API_UNAVAILABLE) is a failure code
    let hr : Int := if !FAILED hrCreate && pfdNull then -1 else hrCreate
    if FAILED hr then showing - 1   -- goto out
    else showing - 1                -- the dialog is shown, then out

/-! ## Check for the download script -/

/-- Button style `BS_SPLITBUTTON` of the Windows SDK. -/
def BS_SPLITBUTTON : Nat := 0x0000000C

/-- The test `safe_strncmp(a, b, n) == 0` on strings that are not `NULL`. -/
def safe_strncmp_eq (a b : String) (n : Nat) : Bool := a.toList.take n == b.toList.take n

/-- What `CheckForFidoThread` reads and writes: its static flag `is_active`,
the window style of the control `IDC_SELECT` and the global `fido_url`. -/
structure FidoState where
  is_active : Bool
  style : Nat
  fido_url : Option String
deriving DecidableEq, Repr

/-- The function `CheckForFidoThread` (lines 1167-1199), run from entry to
return: the value returned (a `DWORD`), the state after it and the calls of
`IsDownloadable` made, with their argument. `WHITEBAR_URL` is a string constant
that is not among the sources. -/
def CheckForFidoThread (WHITEBAR_URL : String) (IsDownloadable : String → Bool)
    (s : FidoState) : Nat × FidoState × List String :=
  if s.is_active then (ofInt32 (-1), s, [])
  else
    let s1 := { s with is_active := true, fido_url := some WHITEBAR_URL }
    if !safe_strncmp_eq WHITEBAR_URL "https://github.com/Smu1zel/Whitebar" 35 then
      -- safe_free(fido_url); goto out
      (0, { s1 with fido_url := none, is_active := false }, [])
    else if IsDownloadable WHITEBAR_URL then
      (0, { s1 with style := s1.style ||| BS_SPLITBUTTON, is_active := false }, [WHITEBAR_URL])
    else (0, { s1 with is_active := false }, [WHITEBAR_URL])

/-- A table of three slots after attaching tooltips to the controls 5 and 6. -/
def sampleReachable : Table := runCalls (emptyTable 3) sampleCalls

/-- A host whose tooltip window cannot be created. -/
def failingHost : TooltipHost :=
  { CreateWindowEx := 0, SetWindowLongPtr := 0, utf8_to_wchar := fun _ => none }

/-- The array `unattend_username` holding `a/b:c`, a terminator and two more bytes. -/
def sampleUsername : List Nat := [97, 47, 98, 58, 99, 0, 7, 7]

theorem store_length (ttlist : Table) (i : Nat) (f : TooltipSlot → TooltipSlot) :
    (store ttlist i f).length = ttlist.length := by
  simp [store]

theorem store_eq_set (ttlist : Table) (i : Nat) (f : TooltipSlot → TooltipSlot)
    (h : i < ttlist.length) : store ttlist i f = ttlist.set i (f ttlist[i]) := by
  simp [store, h]

theorem store_store (ttlist : Table) (i : Nat) (f g : TooltipSlot → TooltipSlot) :
    store (store ttlist i f) i g = store ttlist i (fun s => g (f s)) := by
  by_cases h : i < ttlist.length
  · simp [store, h]
  · have h1 : ttlist.length ≤ i := by omega
    simp [store, List.set_eq_of_length_le h1]

/-- The four stores of `DestroyTooltip` leave the all-zero slot at the index
found by the scan. -/
theorem DestroyTooltip_eq (ttlist : Table) (hControl : HWND) :
    DestroyTooltip ttlist hControl =
      if hControl = 0 then ttlist
      else if ttlist.length ≤ ttlist.findIdx (fun s => s.hCtrl == hControl) then ttlist
      else ttlist.set (ttlist.findIdx (fun s => s.hCtrl == hControl)) zeroSlot := by
  unfold DestroyTooltip
  by_cases h0 : hControl = 0
  · simp [h0]
  · simp only [h0, if_false, scan, MAX_TOOLTIPS, ge_iff_le]
    by_cases hlen : ttlist.length ≤ ttlist.findIdx (fun s => s.hCtrl == hControl)
    · simp [hlen]
    · have hlt : ttlist.findIdx (fun s => s.hCtrl == hControl) < ttlist.length := by omega
      simp only [hlen, if_false, store_store]
      rw [store_eq_set _ _ _ hlt]
      simp [safe_free, zeroSlot]

theorem DestroyTooltip_length (ttlist : Table) (hControl : HWND) :
    (DestroyTooltip ttlist hControl).length = ttlist.length := by
  rw [DestroyTooltip_eq]
  split_ifs <;> simp

/-- Closed form of `CreateTooltip` for a message that is not `NULL`. -/
theorem CreateTooltip_eq (host : TooltipHost) (ttlist : Table) (hControl : HWND)
    (msg : String) (duration : Int) :
    CreateTooltip host ttlist hControl (some msg) duration =
      if hControl = 0 then (false, ttlist)
      else if (DestroyTooltip ttlist hControl).length ≤
          (DestroyTooltip ttlist hControl).findIdx (fun s => s.hTip == 0) then
        (false, DestroyTooltip ttlist hControl)
      else if host.CreateWindowEx = 0 then (false, DestroyTooltip ttlist hControl)
      else (true, (DestroyTooltip ttlist hControl).set
        ((DestroyTooltip ttlist hControl).findIdx (fun s => s.hTip == 0))
        { hTip := host.CreateWindowEx, hCtrl := hControl,
          original_proc := host.SetWindowLongPtr, wstring := host.utf8_to_wchar msg }) := by
  unfold CreateTooltip
  by_cases h0 : hControl = 0
  · simp [h0]
  · simp only [h0, if_false, scan, MAX_TOOLTIPS, ge_iff_le]
    generalize DestroyTooltip ttlist hControl = t0
    by_cases hlen : t0.length ≤ t0.findIdx (fun s => s.hTip == 0)
    · simp [hlen]
    · have hlt : t0.findIdx (fun s => s.hTip == 0) < t0.length := by omega
      have hz : t0[t0.findIdx (fun s => s.hTip == 0)].hTip = 0 := by
        have := @List.findIdx_getElem _ (fun s : TooltipSlot => s.hTip == 0) t0 hlt
        simpa using this
      simp only [hlen, if_false, store_store]
      by_cases hw : host.CreateWindowEx = 0
      · have hsame : store t0 (t0.findIdx (fun s => s.hTip == 0))
            (fun s => { s with hTip := host.CreateWindowEx }) = t0 := by
          rw [store_eq_set _ _ _ hlt]
          apply List.ext_getElem (by simp)
          intro n h1 h2
          rw [List.getElem_set]
          split_ifs with hn
          · subst hn
            rw [hw]
            generalize t0[t0.findIdx (fun s => s.hTip == 0)] = x at hz
            cases x
            simp at hz
            simp [hz]
          · rfl
        rw [hsame]
        simp [hw, hlt, hz]
      · rw [store_eq_set _ _ _ hlt, store_eq_set _ _ _ hlt]
        simp [hw, hlt]

theorem DestroyTooltip_absent (ttlist : Table) (hControl : HWND)
    (habs : ∀ s ∈ ttlist, s.hCtrl ≠ hControl) : DestroyTooltip ttlist hControl = ttlist := by
  rw [DestroyTooltip_eq]
  have hlen : ttlist.findIdx (fun s => s.hCtrl == hControl) = ttlist.length := by
    rw [List.findIdx_eq_length]
    intro x hx
    simpa using habs x hx
  simp [hlen]

theorem DestroyTooltip_present (ttlist : Table) (hControl : HWND) (h0 : hControl ≠ 0)
    (hex : ∃ s ∈ ttlist, s.hCtrl = hControl) :
    ∃ (k : Nat) (hk : k < ttlist.length), ttlist[k].hCtrl = hControl ∧
      (∀ (j : Nat) (hj : j < ttlist.length), j < k → ttlist[j].hCtrl ≠ hControl) ∧
      DestroyTooltip ttlist hControl = ttlist.set k zeroSlot := by
  have hlt : ttlist.findIdx (fun s => s.hCtrl == hControl) < ttlist.length := by
    rw [List.findIdx_lt_length]
    obtain ⟨x, hx, hxc⟩ := hex
    exact ⟨x, hx, by simpa using hxc⟩
  refine ⟨ttlist.findIdx (fun s => s.hCtrl == hControl), hlt, ?_, ?_, ?_⟩
  · have := @List.findIdx_getElem _ (fun s : TooltipSlot => s.hCtrl == hControl) ttlist hlt
    simpa using this
  · intro j hj hjk
    have := @List.not_of_lt_findIdx _ (fun s : TooltipSlot => s.hCtrl == hControl) ttlist j hjk
    simpa using this
  · rw [DestroyTooltip_eq]
    have : ¬ ttlist.length ≤ ttlist.findIdx (fun s => s.hCtrl == hControl) := by omega
    simp [h0, this]

/-! ## Tooltip registry: invariants of the reachable tables -/

theorem SlotOK_zeroSlot : SlotOK zeroSlot := by
  constructor
  · intro _; rfl
  · intro h; exact absurd rfl h

theorem Consistent_emptyTable (n : Nat) : Consistent (emptyTable n) := by
  intro s hs
  have : s = zeroSlot := List.eq_of_mem_replicate hs
  rw [this]
  exact SlotOK_zeroSlot

theorem UniqueControls_emptyTable (n : Nat) : UniqueControls (emptyTable n) := by
  intro i j hi hj hne
  exfalso
  apply hne
  simp [emptyTable, zeroSlot]

theorem Consistent_set (ttlist : Table) (i : Nat) (s : TooltipSlot)
    (hc : Consistent ttlist) (hs : SlotOK s) : Consistent (ttlist.set i s) := by
  intro x hx
  rcases List.mem_or_eq_of_mem_set hx with h | h
  · exact hc x h
  · rw [h]; exact hs

theorem UniqueControls_set (ttlist : Table) (i : Nat) (s : TooltipSlot)
    (hu : UniqueControls ttlist)
    (hs : s.hCtrl ≠ 0 → ∀ (j : Nat) (hj : j < ttlist.length), j ≠ i → ttlist[j].hCtrl ≠ s.hCtrl) :
    UniqueControls (ttlist.set i s) := by
  intro a b ha hb hne heq
  have ha' : a < ttlist.length := by simpa using ha
  have hb' : b < ttlist.length := by simpa using hb
  rw [List.getElem_set] at hne heq
  rw [List.getElem_set] at heq
  by_cases hia : i = a
  · by_cases hib : i = b
    · omega
    · simp only [hia, if_true] at hne heq
      have hb2 : ¬ a = b := fun h => hib (hia.trans h)
      simp only [hb2, if_false] at heq
      exact absurd heq.symm (hs hne b hb' (fun h => hib h.symm))
  · simp only [hia, if_false] at hne heq
    by_cases hib : i = b
    · simp only [hib, if_true] at heq
      have hs0 : s.hCtrl ≠ 0 := by rw [← heq]; exact hne
      exact absurd heq (hs hs0 a ha' (fun h => hia h.symm))
    · simp only [hib, if_false] at heq
      exact hu a b ha' hb' hne heq

theorem Consistent_DestroyTooltip (ttlist : Table) (hControl : HWND)
    (hc : Consistent ttlist) : Consistent (DestroyTooltip ttlist hControl) := by
  rw [DestroyTooltip_eq]
  split_ifs
  · exact hc
  · exact hc
  · exact Consistent_set _ _ _ hc SlotOK_zeroSlot

theorem UniqueControls_DestroyTooltip (ttlist : Table) (hControl : HWND)
    (hu : UniqueControls ttlist) : UniqueControls (DestroyTooltip ttlist hControl) := by
  rw [DestroyTooltip_eq]
  split_ifs
  · exact hu
  · exact hu
  · exact UniqueControls_set _ _ _ hu (fun h => absurd rfl h)

/-- After `DestroyTooltip`, no slot of a table with unique controls holds the
control. -/
theorem DestroyTooltip_removes (ttlist : Table) (hControl : HWND) (h0 : hControl ≠ 0)
    (hu : UniqueControls ttlist) : ∀ s ∈ DestroyTooltip ttlist hControl, s.hCtrl ≠ hControl := by
  by_cases hex : ∃ s ∈ ttlist, s.hCtrl = hControl
  · obtain ⟨k, hk, hkc, _, heq⟩ := DestroyTooltip_present ttlist hControl h0 hex
    rw [heq]
    intro s hs hsc
    obtain ⟨j, hj, hjs⟩ := List.getElem_of_mem hs
    have hj' : j < ttlist.length := by simpa using hj
    rw [List.getElem_set] at hjs
    by_cases hkj : k = j
    · simp only [hkj, if_true] at hjs
      rw [← hjs] at hsc
      exact h0 hsc.symm
    · simp only [hkj, if_false] at hjs
      have h1 : ttlist[k].hCtrl ≠ 0 := by rw [hkc]; exact h0
      have h2 : ttlist[k].hCtrl = ttlist[j].hCtrl := by rw [hkc, hjs, hsc]
      exact hkj (hu k j hk hj' h1 h2)
  · rw [DestroyTooltip_absent]
    · intro s hs hsc; exact hex ⟨s, hs, hsc⟩
    · intro s hs hsc; exact hex ⟨s, hs, hsc⟩

theorem destroySlot_of_SlotOK (s : TooltipSlot) (hs : SlotOK s) : destroySlot s = zeroSlot := by
  unfold destroySlot
  by_cases h : s.hTip = 0
  · simp [h]
    exact hs.1 h
  · simp [h, safe_free, zeroSlot]

theorem DestroyAllTooltips_of_Consistent (ttlist : Table) (hc : Consistent ttlist) :
    DestroyAllTooltips ttlist = emptyTable ttlist.length := by
  unfold DestroyAllTooltips emptyTable
  apply List.ext_getElem (by simp)
  intro n h1 h2
  simp only [List.getElem_map, List.getElem_replicate]
  exact destroySlot_of_SlotOK _ (hc _ (List.getElem_mem _))

theorem CreateTooltip_length (host : TooltipHost) (ttlist : Table) (hControl : HWND)
    (message : Option String) (duration : Int) :
    (CreateTooltip host ttlist hControl message duration).2.length = ttlist.length := by
  cases message with
  | none => rfl
  | some msg =>
    rw [CreateTooltip_eq]
    split_ifs <;> simp [DestroyTooltip_length]

theorem Consistent_CreateTooltip (host : TooltipHost) (ttlist : Table) (hControl : HWND)
    (message : Option String) (duration : Int) (hc : Consistent ttlist) :
    Consistent (CreateTooltip host ttlist hControl message duration).2 := by
  cases message with
  | none => exact hc
  | some msg =>
    rw [CreateTooltip_eq]
    split_ifs with h0 h1 h2
    · exact hc
    · exact Consistent_DestroyTooltip _ _ hc
    · exact Consistent_DestroyTooltip _ _ hc
    · apply Consistent_set _ _ _ (Consistent_DestroyTooltip _ _ hc)
      constructor
      · intro h; exact absurd h h2
      · intro _; exact h0

theorem UniqueControls_CreateTooltip (host : TooltipHost) (ttlist : Table) (hControl : HWND)
    (message : Option String) (duration : Int) (hu : UniqueControls ttlist) :
    UniqueControls (CreateTooltip host ttlist hControl message duration).2 := by
  cases message with
  | none => exact hu
  | some msg =>
    rw [CreateTooltip_eq]
    split_ifs with h0 h1 h2
    · exact hu
    · exact UniqueControls_DestroyTooltip _ _ hu
    · exact UniqueControls_DestroyTooltip _ _ hu
    · apply UniqueControls_set _ _ _ (UniqueControls_DestroyTooltip _ _ hu)
      intro _ j hj _
      exact DestroyTooltip_removes ttlist hControl h0 hu _ (List.getElem_mem _)

theorem invariants_apply (ttlist : Table) (c : TooltipCall)
    (h : Consistent ttlist ∧ UniqueControls ttlist) :
    Consistent (c.apply ttlist) ∧ UniqueControls (c.apply ttlist) := by
  cases c with
  | create host hControl message duration =>
    exact ⟨Consistent_CreateTooltip _ _ _ _ _ h.1, UniqueControls_CreateTooltip _ _ _ _ _ h.2⟩
  | destroy hControl =>
    exact ⟨Consistent_DestroyTooltip _ _ h.1, UniqueControls_DestroyTooltip _ _ h.2⟩
  | destroyAll =>
    simp only [TooltipCall.apply]
    rw [DestroyAllTooltips_of_Consistent _ h.1]
    exact ⟨Consistent_emptyTable _, UniqueControls_emptyTable _⟩

theorem invariants_runCalls (calls : List TooltipCall) (ttlist : Table)
    (h : Consistent ttlist ∧ UniqueControls ttlist) :
    Consistent (runCalls ttlist calls) ∧ UniqueControls (runCalls ttlist calls) := by
  induction calls generalizing ttlist with
  | nil => exact h
  | cons c rest ih =>
    simp only [runCalls, List.foldl_cons]
    exact ih _ (invariants_apply _ c h)

theorem invariants_reachable (n : Nat) (calls : List TooltipCall) :
    Consistent (runCalls (emptyTable n) calls) ∧
      UniqueControls (runCalls (emptyTable n) calls) :=
  invariants_runCalls calls _ ⟨Consistent_emptyTable n, UniqueControls_emptyTable n⟩

theorem length_runCalls (calls : List TooltipCall) (ttlist : Table) :
    (runCalls ttlist calls).length = ttlist.length := by
  induction calls generalizing ttlist with
  | nil => rfl
  | cons c rest ih =>
    simp only [runCalls, List.foldl_cons]
    rw [show List.foldl TooltipCall.apply (c.apply ttlist) rest = runCalls (c.apply ttlist) rest
      from rfl, ih]
    cases c with
    | create host hControl message duration => exact CreateTooltip_length _ _ _ _ _
    | destroy hControl => exact DestroyTooltip_length _ _
    | destroyAll => simp [TooltipCall.apply, DestroyAllTooltips]

/-! ## Tooltip registry: the claims -/

theorem findIdx_empty_of_full (ttlist : Table) (hfull : ∀ s ∈ ttlist, occupied s = true) :
    ttlist.findIdx (fun s => s.hTip == 0) = ttlist.length := by
  rw [List.findIdx_eq_length]
  intro x hx
  have := hfull x hx
  simpa [occupied] using this

theorem CreateTooltip_no_room (host : TooltipHost) (ttlist : Table)
    (hControl : HWND) (msg : String) (duration : Int)
    (hfull : ∀ s ∈ ttlist, occupied s = true)
    (habs : ∀ s ∈ ttlist, s.hCtrl ≠ hControl) :
    CreateTooltip host ttlist hControl (some msg) duration = (false, ttlist) := by
  rw [CreateTooltip_eq, DestroyTooltip_absent _ _ habs, findIdx_empty_of_full _ hfull]
  simp

/-- C1: on a table whose slots are all occupied, `CreateTooltip` for a non-NULL
control that has no entry and a non-NULL message returns FALSE and leaves the
whole table (every field of every slot) as it was. -/
theorem CreateTooltip_full_table_fails (host : TooltipHost) (ttlist : Table)
    (hControl : HWND) (msg : String) (duration : Int)
    (hfull : ∀ s ∈ ttlist, occupied s = true) (h0 : hControl ≠ 0)
    (habs : ∀ s ∈ ttlist, s.hCtrl ≠ hControl) :
    CreateTooltip host ttlist hControl (some msg) duration = (false, ttlist) := by
  have hscan := findIdx_empty_of_full ttlist hfull
  rw [CreateTooltip_eq, DestroyTooltip_absent _ _ habs, hscan]
  simp [h0]

theorem CreateTooltip_full_table_fails_witness :
    (∀ s ∈ sampleFullTable, occupied s = true) ∧ (3 : HWND) ≠ 0 ∧
      (∀ s ∈ sampleFullTable, s.hCtrl ≠ 3) ∧
      CreateTooltip (sampleHost 20) sampleFullTable 3 (some "tip") (-1)
        = (false, sampleFullTable) :=
  ⟨by decide, by decide, by decide,
    CreateTooltip_full_table_fails (sampleHost 20) sampleFullTable 3 "tip" (-1)
      (by decide) (by decide) (by decide)⟩

/-- C4: in every table reachable from the empty table by `CreateTooltip`,
`DestroyTooltip` and `DestroyAllTooltips` calls, with any host answers, two
occupied slots that hold the same control are the same slot. -/
theorem reachable_unique_control (n : Nat) (calls : List TooltipCall) (i j : Nat)
    (s t : TooltipSlot)
    (hi : (runCalls (emptyTable n) calls)[i]? = some s)
    (hj : (runCalls (emptyTable n) calls)[j]? = some t)
    (hs : occupied s = true) (_ht : occupied t = true) (hst : s.hCtrl = t.hCtrl) : i = j := by
  obtain ⟨hc, hu⟩ := invariants_reachable n calls
  obtain ⟨hi1, hi2⟩ := List.getElem?_eq_some.mp hi
  obtain ⟨hj1, hj2⟩ := List.getElem?_eq_some.mp hj
  apply hu i j hi1 hj1
  · rw [hi2]
    apply (hc s (by rw [← hi2]; exact List.getElem_mem _)).2
    simpa [occupied] using hs
  · rw [hi2, hj2]; exact hst

theorem reachable_unique_control_witness :
    (runCalls (emptyTable 3) sampleCalls)[1]? = some (Attach.slot ⟨sampleHost 21, 6, "b", -1⟩) ∧
      occupied (Attach.slot ⟨sampleHost 21, 6, "b", -1⟩) = true ∧ 1 = 1 :=
  ⟨by decide, by decide,
    reachable_unique_control 3 sampleCalls 1 1 (Attach.slot ⟨sampleHost 21, 6, "b", -1⟩)
      (Attach.slot ⟨sampleHost 21, 6, "b", -1⟩) (by decide) (by decide) (by decide)
      (by decide) rfl⟩

/-- C5: `DestroyTooltip(control)` for a non-NULL control held by some slot
leaves the slot found by the scan (the first one holding the control) with
tooltip handle, control, original procedure and text all NULL and every other
slot unchanged; when no slot holds the control, or the control is NULL, the
table is unchanged. -/
theorem DestroyTooltip_frame (ttlist : Table) (hControl : HWND) :
    (hControl ≠ 0 → (∃ s ∈ ttlist, s.hCtrl = hControl) →
      ∃ (k : Nat) (hk : k < ttlist.length), ttlist[k].hCtrl = hControl ∧
        (∀ (j : Nat) (hj : j < ttlist.length), j < k → ttlist[j].hCtrl ≠ hControl) ∧
        DestroyTooltip ttlist hControl =
          ttlist.set k { hTip := 0, hCtrl := 0, original_proc := 0, wstring := none }) ∧
    ((hControl = 0 ∨ ∀ s ∈ ttlist, s.hCtrl ≠ hControl) →
      DestroyTooltip ttlist hControl = ttlist) := by
  constructor
  · intro h0 hex
    exact DestroyTooltip_present ttlist hControl h0 hex
  · rintro (h | h)
    · rw [DestroyTooltip_eq]; simp [h]
    · exact DestroyTooltip_absent _ _ h

theorem DestroyTooltip_frame_witness :
    (∃ (k : Nat) (hk : k < sampleFullTable.length), sampleFullTable[k].hCtrl = 2 ∧
        (∀ (j : Nat) (hj : j < sampleFullTable.length), j < k → sampleFullTable[j].hCtrl ≠ 2) ∧
        DestroyTooltip sampleFullTable 2 =
          sampleFullTable.set k { hTip := 0, hCtrl := 0, original_proc := 0, wstring := none }) ∧
      DestroyTooltip sampleFullTable 3 = sampleFullTable :=
  ⟨(DestroyTooltip_frame sampleFullTable 2).1 (by decide)
      ⟨{ hTip := 11, hCtrl := 2, original_proc := 6, wstring := none }, by decide, rfl⟩,
    (DestroyTooltip_frame sampleFullTable 3).2 (Or.inr (by decide))⟩

/-- C6: from every reachable table, `DestroyAllTooltips` leaves every slot empty
(tooltip handle, control, original procedure and text all NULL), and a
`DestroyTooltip` call made after it, for any control, leaves the table
unchanged. -/
theorem DestroyAllTooltips_then_DestroyTooltip (n : Nat) (calls : List TooltipCall)
    (hControl : HWND) :
    DestroyAllTooltips (runCalls (emptyTable n) calls) =
        List.replicate n { hTip := 0, hCtrl := 0, original_proc := 0, wstring := none } ∧
      DestroyTooltip (DestroyAllTooltips (runCalls (emptyTable n) calls)) hControl =
        DestroyAllTooltips (runCalls (emptyTable n) calls) := by
  have hall : DestroyAllTooltips (runCalls (emptyTable n) calls) = emptyTable n := by
    rw [DestroyAllTooltips_of_Consistent _ (invariants_reachable n calls).1, length_runCalls]
    simp [emptyTable]
  rw [hall]
  refine ⟨rfl, ?_⟩
  by_cases h0 : hControl = 0
  · rw [DestroyTooltip_eq]; simp [h0]
  · apply DestroyTooltip_absent
    intro s hs
    have : s = zeroSlot := List.eq_of_mem_replicate hs
    rw [this]
    exact fun h => h0 h.symm

/-- C3: on a reachable table (full or not) in which the control already has an
entry, a `CreateTooltip` call for that control that returns TRUE leaves exactly
one occupied slot whose control is that control, that slot holds the wide
string made from the new message, and the number of occupied slots is the same
as before the call. -/
theorem CreateTooltip_replaces (n : Nat) (calls : List TooltipCall) (host : TooltipHost)
    (hControl : HWND) (message : Option String) (duration : Int)
    (hex : ∃ s ∈ runCalls (emptyTable n) calls, occupied s = true ∧ s.hCtrl = hControl)
    (hret : (CreateTooltip host (runCalls (emptyTable n) calls) hControl message duration).1
      = true) :
    ∃ msg, message = some msg ∧
      (∃ i, (CreateTooltip host (runCalls (emptyTable n) calls) hControl message duration).2[i]?
            = some { hTip := host.CreateWindowEx, hCtrl := hControl,
                     original_proc := host.SetWindowLongPtr,
                     wstring := host.utf8_to_wchar msg } ∧
          host.CreateWindowEx ≠ 0 ∧
          ∀ (j : Nat) (t : TooltipSlot),
            (CreateTooltip host (runCalls (emptyTable n) calls) hControl message duration).2[j]?
              = some t → occupied t = true → t.hCtrl = hControl → j = i) ∧
      occupiedCount
          (CreateTooltip host (runCalls (emptyTable n) calls) hControl message duration).2
        = occupiedCount (runCalls (emptyTable n) calls) := by
  obtain ⟨hc, hu⟩ := invariants_reachable n calls
  generalize runCalls (emptyTable n) calls = tt at hex hret hc hu ⊢
  obtain ⟨s, hsm, hocc, hsc⟩ := hex
  have h0 : hControl ≠ 0 := by
    rw [← hsc]
    apply (hc s hsm).2
    simpa [occupied] using hocc
  cases message with
  | none => exact absurd hret (by simp [CreateTooltip])
  | some msg =>
    refine ⟨msg, rfl, ?_⟩
    have hu' := UniqueControls_CreateTooltip host tt hControl (some msg) duration hu
    obtain ⟨k, hk, hkc, _, heq⟩ := DestroyTooltip_present tt hControl h0 ⟨s, hsm, hsc⟩
    have hlt : (tt.set k zeroSlot).findIdx (fun s => s.hTip == 0) < (tt.set k zeroSlot).length := by
      rw [List.findIdx_lt_length]
      refine ⟨zeroSlot, ?_, rfl⟩
      have hk' : k < (tt.set k zeroSlot).length := by simpa using hk
      have : (tt.set k zeroSlot)[k] = zeroSlot := List.getElem_set_self hk'
      exact List.mem_iff_getElem.mpr ⟨k, hk', this⟩
    have hlt' : ¬ (tt.set k zeroSlot).length ≤ (tt.set k zeroSlot).findIdx (fun s => s.hTip == 0) := by
      omega
    have hz : (tt.set k zeroSlot)[(tt.set k zeroSlot).findIdx (fun s => s.hTip == 0)].hTip = 0 := by
      have := @List.findIdx_getElem _ (fun s : TooltipSlot => s.hTip == 0) (tt.set k zeroSlot) hlt
      simpa using this
    rw [CreateTooltip_eq, heq] at hret hu' ⊢
    simp only [h0, hlt', if_false] at hret hu' ⊢
    by_cases hw : host.CreateWindowEx = 0
    · simp [hw] at hret
    · simp only [hw, if_false] at hu' ⊢
      generalize hi : (tt.set k zeroSlot).findIdx (fun s => s.hTip == 0) = i at hlt hz hu' ⊢
      have hi1 : i < tt.length := by simpa using hlt
      refine ⟨⟨i, ?_, hw, ?_⟩, ?_⟩
      · simp [hi1]
      · intro j t hj _ htc
        obtain ⟨hj1, hj2⟩ := List.getElem?_eq_some.mp hj
        apply hu' j i hj1 (by simpa using hi1)
        · rw [hj2, htc]; exact h0
        · rw [hj2, htc]; simp
      · have hoccK : occupied tt[k] = true := by
          have hne : tt[k].hTip ≠ 0 := by
            intro h
            have := (hc tt[k] (List.getElem_mem _)).1 h
            rw [this] at hkc
            exact h0 hkc.symm
          simpa [occupied] using hne
        have hpos : 0 < tt.countP occupied :=
          List.countP_pos_iff.mpr ⟨tt[k], List.getElem_mem _, hoccK⟩
        have hnocc : occupied (tt.set k zeroSlot)[i] = false := by
          simp [occupied, hz]
        unfold occupiedCount
        rw [List.countP_set _ _ _ _ hlt, hnocc, List.countP_set _ _ _ _ hk, hoccK]
        simp [occupied, zeroSlot, hw]
        omega

theorem CreateTooltip_replaces_witness :
    (∃ s ∈ runCalls (emptyTable 3) sampleCalls, occupied s = true ∧ s.hCtrl = 5) ∧
      (CreateTooltip (sampleHost 30) (runCalls (emptyTable 3) sampleCalls) 5 (some "new") 400).1
        = true ∧
      ∃ msg, some "new" = some msg ∧
      (∃ i, (CreateTooltip (sampleHost 30) (runCalls (emptyTable 3) sampleCalls) 5
              (some "new") 400).2[i]?
            = some { hTip := (sampleHost 30).CreateWindowEx, hCtrl := 5,
                     original_proc := (sampleHost 30).SetWindowLongPtr,
                     wstring := (sampleHost 30).utf8_to_wchar msg } ∧
          (sampleHost 30).CreateWindowEx ≠ 0 ∧
          ∀ (j : Nat) (t : TooltipSlot),
            (CreateTooltip (sampleHost 30) (runCalls (emptyTable 3) sampleCalls) 5
              (some "new") 400).2[j]?
              = some t → occupied t = true → t.hCtrl = 5 → j = i) ∧
      occupiedCount
          (CreateTooltip (sampleHost 30) (runCalls (emptyTable 3) sampleCalls) 5
            (some "new") 400).2
        = occupiedCount (runCalls (emptyTable 3) sampleCalls) :=
  ⟨⟨Attach.slot ⟨sampleHost 20, 5, "a", -1⟩, by decide, by decide, rfl⟩, by decide,
    CreateTooltip_replaces 3 sampleCalls (sampleHost 30) 5 (some "new") 400
      ⟨Attach.slot ⟨sampleHost 20, 5, "a", -1⟩, by decide, by decide, rfl⟩ (by decide)⟩

theorem findIdx_append_first (p : TooltipSlot → Bool) (filled rest : Table) (z : TooltipSlot)
    (hf : ∀ s ∈ filled, p s = false) (hz : p z = true) :
    (filled ++ z :: rest).findIdx p = filled.length := by
  induction filled with
  | nil => simp [List.findIdx_cons, hz]
  | cons x xs ih =>
    have hx : p x = false := hf x (List.mem_cons_self _ _)
    have := ih (fun s hs => hf s (List.mem_cons_of_mem _ hs))
    simp [List.findIdx_cons, hx, this]

theorem set_append_first (filled rest : Table) (z x : TooltipSlot) :
    (filled ++ z :: rest).set filled.length x = filled ++ x :: rest := by
  induction filled with
  | nil => rfl
  | cons y ys ih => simp [ih]

/-- With an empty slot right after the occupied ones, `CreateTooltip` for a
control that has no entry fills that slot. -/
theorem CreateTooltip_fills_next (filled : Table) (m : Nat) (a : Attach)
    (hf : ∀ s ∈ filled, s.hTip ≠ 0 ∧ s.hCtrl ≠ a.hControl) (h0 : a.hControl ≠ 0)
    (hw : a.host.CreateWindowEx ≠ 0) :
    CreateTooltip a.host (filled ++ zeroSlot :: List.replicate m zeroSlot) a.hControl
        (some a.message) a.duration
      = (true, filled ++ a.slot :: List.replicate m zeroSlot) := by
  have habs : ∀ s ∈ filled ++ zeroSlot :: List.replicate m zeroSlot, s.hCtrl ≠ a.hControl := by
    intro s hs
    rcases List.mem_append.mp hs with h | h
    · exact (hf s h).2
    · have : s = zeroSlot := by
        rcases List.mem_cons.mp h with h | h
        · exact h
        · exact List.eq_of_mem_replicate h
      rw [this]
      exact fun h => h0 h.symm
  have hidx : (filled ++ zeroSlot :: List.replicate m zeroSlot).findIdx (fun s => s.hTip == 0)
      = filled.length :=
    findIdx_append_first _ _ _ _ (fun s hs => by simpa using (hf s hs).1) rfl
  rw [CreateTooltip_eq, DestroyTooltip_absent _ _ habs, hidx, set_append_first]
  simp [h0, hw, Attach.slot]

theorem attachAll_fill (reqs : List Attach) (filled : Table) (m : Nat)
    (hf : ∀ s ∈ filled, s.hTip ≠ 0)
    (hok : ∀ a ∈ reqs, a.hControl ≠ 0 ∧ a.host.CreateWindowEx ≠ 0)
    (hdist : (reqs.map Attach.hControl).Nodup)
    (hnew : ∀ s ∈ filled, ∀ a ∈ reqs, s.hCtrl ≠ a.hControl) :
    attachAll (filled ++ List.replicate (reqs.length + m) zeroSlot) reqs
      = (List.replicate reqs.length true,
          filled ++ reqs.map Attach.slot ++ List.replicate m zeroSlot) := by
  induction reqs generalizing filled with
  | nil => simp [attachAll]
  | cons a rest ih =>
    have ha := hok a (List.mem_cons_self _ _)
    have hrep : List.replicate ((a :: rest).length + m) zeroSlot
        = zeroSlot :: List.replicate (rest.length + m) zeroSlot := by
      rw [List.length_cons, show rest.length + 1 + m = (rest.length + m) + 1 by omega,
        List.replicate_succ]
    rw [List.map_cons, List.nodup_cons] at hdist
    have hstep := CreateTooltip_fills_next filled (rest.length + m) a
      (fun s hs => ⟨hf s hs, hnew s hs a (List.mem_cons_self _ _)⟩) ha.1 ha.2
    have hih := ih (filled ++ [a.slot])
      (by
        intro s hs
        rcases List.mem_append.mp hs with h | h
        · exact hf s h
        · rw [List.mem_singleton.mp h]; exact ha.2)
      (fun b hb => hok b (List.mem_cons_of_mem _ hb)) hdist.2
      (by
        intro s hs b hb
        rcases List.mem_append.mp hs with h | h
        · exact hnew s h b (List.mem_cons_of_mem _ hb)
        · rw [List.mem_singleton.mp h]
          intro heq
          exact hdist.1 (List.mem_map.mpr ⟨b, hb, heq.symm⟩))
    rw [hrep]
    simp only [attachAll, hstep]
    rw [show filled ++ a.slot :: List.replicate (rest.length + m) zeroSlot
        = (filled ++ [a.slot]) ++ List.replicate (rest.length + m) zeroSlot by simp, hih]
    simp [List.replicate_succ]

/-- C2: with `MAX_TOOLTIPS` equal to 32 and tooltip-window creation succeeding,
`CreateTooltip` on 32 pairwise-distinct non-NULL controls, starting from the
empty table, returns TRUE each time; `CreateTooltip` on a 33rd distinct
control returns FALSE, and afterwards each of the 32 earlier controls still has
an occupied slot of its own holding the wide string made from its message. -/
theorem attach_32_then_33rd_fails (reqs : List Attach) (host : TooltipHost) (hControl : HWND)
    (message : Option String) (duration : Int)
    (hlen : reqs.length = 32)
    (hok : ∀ a ∈ reqs, a.hControl ≠ 0 ∧ a.host.CreateWindowEx ≠ 0)
    (hdist : (reqs.map Attach.hControl).Nodup)
    (hnew : hControl ∉ reqs.map Attach.hControl) :
    (attachAll (emptyTable 32) reqs).1 = List.replicate 32 true ∧
      (CreateTooltip host (attachAll (emptyTable 32) reqs).2 hControl message duration).1
        = false ∧
      ∀ (k : Nat) (hk : k < reqs.length),
        (CreateTooltip host (attachAll (emptyTable 32) reqs).2 hControl message duration).2[k]?
          = some { hTip := reqs[k].host.CreateWindowEx, hCtrl := reqs[k].hControl,
                   original_proc := reqs[k].host.SetWindowLongPtr,
                   wstring := reqs[k].host.utf8_to_wchar reqs[k].message } ∧
        reqs[k].host.CreateWindowEx ≠ 0 := by
  have hfill := attachAll_fill reqs [] 0 (by simp) hok hdist (by simp)
  simp only [Nat.add_zero, List.nil_append, List.replicate_zero, List.append_nil, hlen] at hfill
  have hfill' : attachAll (emptyTable 32) reqs
      = (List.replicate 32 true, reqs.map Attach.slot) := hfill
  rw [hfill']
  have hcall : CreateTooltip host (reqs.map Attach.slot) hControl message duration
      = (false, reqs.map Attach.slot) := by
    cases message with
    | none => rfl
    | some msg =>
      apply CreateTooltip_no_room
      · intro s hs
        obtain ⟨a, ha, has⟩ := List.mem_map.mp hs
        have := (hok a ha).2
        rw [← has]
        simpa [occupied, Attach.slot] using this
      · intro s hs hsc
        obtain ⟨a, ha, has⟩ := List.mem_map.mp hs
        apply hnew
        refine List.mem_map.mpr ⟨a, ha, ?_⟩
        rw [← hsc, ← has]
        rfl
  rw [hcall]
  refine ⟨rfl, rfl, ?_⟩
  intro k hk
  refine ⟨?_, (hok _ (List.getElem_mem _)).2⟩
  simp [hk, Attach.slot]

set_option maxRecDepth 20000 in
theorem attach_32_then_33rd_fails_witness :
    sampleRequests.length = 32 ∧
      (∀ a ∈ sampleRequests, a.hControl ≠ 0 ∧ a.host.CreateWindowEx ≠ 0) ∧
      (sampleRequests.map Attach.hControl).Nodup ∧
      33 ∉ sampleRequests.map Attach.hControl ∧
      (attachAll (emptyTable 32) sampleRequests).1 = List.replicate 32 true ∧
      (CreateTooltip (sampleHost 200) (attachAll (emptyTable 32) sampleRequests).2 33
        (some "one too many") (-1)).1 = false :=
  have h := attach_32_then_33rd_fails sampleRequests (sampleHost 200) 33
    (some "one too many") (-1) (by decide) (by decide) (by decide) (by decide)
  ⟨by decide, by decide, by decide, by decide, h.1, h.2.1⟩

/-! ## Dialog template: reads, writes and string functions -/

theorem readW_congr (b d : Buffer) (i : Nat) (h0 : d[2 * i]? = b[2 * i]?)
    (h1 : d[2 * i + 1]? = b[2 * i + 1]?) : readW d i = readW b i := by
  unfold readW
  rw [List.getD_eq_getElem?_getD, List.getD_eq_getElem?_getD, List.getD_eq_getElem?_getD,
    List.getD_eq_getElem?_getD, h0, h1]
  by_cases hb : 2 * i + 1 < b.length
  · have hc : 2 * i + 1 < d.length := by
      by_contra hc
      rw [List.getElem?_eq_none (by omega), List.getElem?_eq_getElem hb] at h1
      exact Option.noConfusion h1
    simp [hb, hc]
  · have hc : ¬ 2 * i + 1 < d.length := by
      intro hc
      rw [List.getElem?_eq_none (by omega : b.length ≤ 2 * i + 1), List.getElem?_eq_getElem hc] at h1
      exact Option.noConfusion h1
    simp [hb, hc]

theorem writeW_length (b d : Buffer) (i v : Nat) (h : writeW b i v = some d) :
    d.length = b.length := by
  unfold writeW at h
  split_ifs at h
  cases h
  simp

theorem writeW_getElem? (b d : Buffer) (i v j : Nat) (h : writeW b i v = some d)
    (hj0 : j ≠ 2 * i) (hj1 : j ≠ 2 * i + 1) : d[j]? = b[j]? := by
  unfold writeW at h
  split_ifs at h
  cases h
  rw [List.getElem?_set, List.getElem?_set]
  simp [Ne.symm hj0, Ne.symm hj1]

theorem writeW_isSome (b : Buffer) (i v : Nat) (h : 2 * i + 1 < b.length) :
    ∃ d, writeW b i v = some d := by
  unfold writeW
  simp [h]

theorem readW_writeW_zero (b d : Buffer) (i : Nat) (h : writeW b i 0 = some d) :
    readW d i = some 0 := by
  unfold writeW at h
  split_ifs at h with hlt
  cases h
  unfold readW
  have h0 : 2 * i < b.length := by omega
  simp [hlt, h0, List.getD_eq_getElem?_getD, List.getElem?_set]

theorem readW_writeW_ne (b d : Buffer) (i v k : Nat) (h : writeW b i v = some d)
    (hk : k ≠ i) : readW d k = readW b k := by
  apply readW_congr
  · exact writeW_getElem? b d i v _ h (by omega) (by omega)
  · exact writeW_getElem? b d i v _ h (by omega) (by omega)

theorem readW_lt (b : Buffer) (i w : Nat) (h : readW b i = some w) : 2 * i + 1 < b.length := by
  unfold readW at h
  split_ifs at h with hlt
  exact hlt

/-- The call `wcslen` looks at the first `WCHAR` and then at the rest. -/
theorem wcslen_unfold (b : Buffer) (i : Nat) :
    wcslen b i =
      match readW b i with
      | none => none
      | some w => if w = 0 then some 0 else (wcslen b (i + 1)).map (· + 1) := by
  unfold wcslen readW
  by_cases h : 2 * i + 1 < b.length
  · have h0 : 2 * i < b.length := by omega
    rw [List.drop_eq_getElem_cons h0, List.drop_eq_getElem_cons h]
    simp only [h, if_true, wcslenFrom]
    rw [List.getD_eq_getElem _ _ h0, List.getD_eq_getElem _ _ h]
    rw [show 2 * i + 1 + 1 = 2 * (i + 1) by omega]
  · simp only [h, if_false]
    by_cases h0 : 2 * i < b.length
    · rw [List.drop_eq_getElem_cons h0, List.drop_of_length_le (by omega)]
      rfl
    · rw [List.drop_of_length_le (by omega)]
      rfl

theorem wcslen_of_string (b : Buffer) (n i : Nat)
    (hs : ∀ k, k < n → ∃ w, w ≠ 0 ∧ readW b (i + k) = some w)
    (hz : readW b (i + n) = some 0) : wcslen b i = some n := by
  induction n generalizing i with
  | zero =>
    rw [wcslen_unfold]
    simp at hz
    simp [hz]
  | succ n ih =>
    obtain ⟨w, hw0, hw⟩ := hs 0 (by omega)
    have hrec : wcslen b (i + 1) = some n := by
      apply ih
      · intro k hk
        have := hs (k + 1) (by omega)
        rwa [show i + (k + 1) = i + 1 + k by omega] at this
      · rwa [show i + (n + 1) = i + 1 + n by omega] at hz
    rw [wcslen_unfold]
    simp at hw
    simp [hw, hw0, hrec]

/-- A wide string `name` followed by its terminator sits at word index `i`. -/
theorem wcscmpEq_of_string (b : Buffer) (name : List Nat) (i : Nat)
    (hs : ∀ (k : Nat) (hk : k < name.length), readW b (i + k) = some name[k])
    (hz : readW b (i + name.length) = some 0) : wcscmpEq b i name = some true := by
  induction name generalizing i with
  | nil =>
    simp at hz
    simp [wcscmpEq, hz]
  | cons c cs ih =>
    have h0 := hs 0 (by simp)
    simp at h0
    have hrec : wcscmpEq b (i + 1) cs = some true := by
      apply ih
      · intro k hk
        have := hs (k + 1) (by simp; omega)
        simpa [show i + (k + 1) = i + 1 + k by omega] using this
      · simpa [show i + (cs.length + 1) = i + 1 + cs.length by omega] using hz
    simp [wcscmpEq, h0, hrec]

theorem string_of_wcscmpEq (b : Buffer) (name : List Nat) (i : Nat)
    (h : wcscmpEq b i name = some true) :
    (∀ (k : Nat) (hk : k < name.length), readW b (i + k) = some name[k]) ∧
      readW b (i + name.length) = some 0 := by
  induction name generalizing i with
  | nil =>
    simp only [wcscmpEq] at h
    cases hr : readW b i with
    | none => simp [hr] at h
    | some w =>
      simp [hr] at h
      simp [hr, h]
  | cons c cs ih =>
    simp only [wcscmpEq] at h
    cases hr : readW b i with
    | none => simp [hr] at h
    | some w =>
      simp only [hr] at h
      by_cases hw : w = c
      · simp only [hw, if_true] at h
        obtain ⟨h1, h2⟩ := ih (i + 1) h
        constructor
        · intro k hk
          cases k with
          | zero => simp [hr, hw]
          | succ k =>
            have := h1 k (by simpa using hk)
            simpa [show i + (k + 1) = i + 1 + k by omega] using this
        · simpa [show i + (cs.length + 1) = i + 1 + cs.length by omega] using h2
      · simp [hw] at h

/-- On a terminated string the comparison with a literal that has no zero
character stays inside the buffer. -/
theorem wcscmpEq_isSome (b : Buffer) (name : List Nat) (i n : Nat)
    (hname : ∀ c ∈ name, c ≠ 0) (hlen : wcslen b i = some n) :
    ∃ r, wcscmpEq b i name = some r := by
  induction name generalizing i n with
  | nil =>
    rw [wcslen_unfold] at hlen
    cases hr : readW b i with
    | none => simp [hr] at hlen
    | some w => exact ⟨w == 0, by simp [wcscmpEq, hr]⟩
  | cons c cs ih =>
    rw [wcslen_unfold] at hlen
    cases hr : readW b i with
    | none => simp [hr] at hlen
    | some w =>
      simp only [hr] at hlen
      by_cases hw : w = c
      · have hc : c ≠ 0 := hname c (List.mem_cons_self _ _)
        have hw0 : w ≠ 0 := by rw [hw]; exact hc
        simp only [hw0, if_false] at hlen
        cases hrec : wcslen b (i + 1) with
        | none => simp [hrec] at hlen
        | some m =>
          obtain ⟨r, hr'⟩ := ih (i + 1) m (fun x hx => hname x (List.mem_cons_of_mem _ hx)) hrec
          exact ⟨r, by simp [wcscmpEq, hr, hw, hr']⟩
      · exact ⟨false, by simp [wcscmpEq, hr, hw]⟩

/-! ## Dialog template: the font substitution -/

theorem SegoeUISymbol_ne_zero : ∀ c ∈ SegoeUISymbol, c ≠ 0 := by decide

theorem moveArgs_aligned (start size i : Nat) (hstart : start % 4 = 0) :
    moveArgs start size i 8 =
      (alignUp4 (2 * (i + 9)), alignUp4 (2 * (i + 16)),
        (size + 2 ^ 64 - alignUp4 (2 * (i + 16))) % 2 ^ 64) := by
  have h1 : alignDown4 (start + 2 * (i + 8 + 2)) - start = alignUp4 (2 * (i + 9)) := by
    unfold alignDown4 alignUp4; omega
  have h2 : alignDown4 (start + 2 * (i + 17)) - start = alignUp4 (2 * (i + 16)) := by
    unfold alignDown4 alignUp4; omega
  simp only [moveArgs, h1, h2]

/-- The two stores of the `Segoe UI Symbol` branch: they succeed, `wcslen`
gives 8, and only the words `i + 8` and `i + 9` change, both to zero. -/
theorem fontStores_segoe (start size : Nat) (b : Buffer) (i : Nat)
    (hname : wideStringAt b i SegoeUISymbol) :
    ∃ b2, fontStores start size b i = some (b2, moveArgs start size i 8) ∧
      b2.length = b.length ∧
      (∀ j, j < 2 * (i + 8) ∨ 2 * (i + 10) ≤ j → b2[j]? = b[j]?) ∧
      (∀ k, k ≠ i + 8 → k ≠ i + 9 → readW b2 k = readW b k) ∧
      readW b2 (i + 8) = some 0 ∧ readW b2 (i + 9) = some 0 := by
  have h15 : readW b (i + 15) = some 0 := hname.2
  have hlt := readW_lt _ _ _ h15
  obtain ⟨b1, hb1⟩ := writeW_isSome b (i + 8) 0 (by omega)
  have hl1 := writeW_length _ _ _ _ hb1
  have hlen : wcslen b1 i = some 8 := by
    apply wcslen_of_string
    · intro k hk
      have hk15 : k < SegoeUISymbol.length := by
        have : SegoeUISymbol.length = 15 := rfl
        omega
      refine ⟨SegoeUISymbol[k], SegoeUISymbol_ne_zero _ (List.getElem_mem _), ?_⟩
      rw [readW_writeW_ne _ _ _ _ _ hb1 (by omega)]
      exact hname.1 k hk15
    · exact readW_writeW_zero _ _ _ hb1
  obtain ⟨b2, hb2⟩ := writeW_isSome b1 (i + 8 + 1) 0 (by omega)
  have hl2 := writeW_length _ _ _ _ hb2
  refine ⟨b2, ?_, by omega, ?_, ?_, ?_, ?_⟩
  · simp [fontStores, hb1, hlen, hb2]
  · intro j hj
    rw [writeW_getElem? _ _ _ _ _ hb2 (by omega) (by omega),
      writeW_getElem? _ _ _ _ _ hb1 (by omega) (by omega)]
  · intro k h8 h9
    rw [readW_writeW_ne _ _ _ _ _ hb2 (by omega), readW_writeW_ne _ _ _ _ _ hb1 h8]
  · rw [readW_writeW_ne _ _ _ _ _ hb2 (by omega)]
    exact readW_writeW_zero _ _ _ hb1
  · exact readW_writeW_zero _ _ _ hb2

theorem memmove_getElem?_lt (b out : Buffer) (dst src n j : Nat)
    (h : memmove b dst src n = some out) (hj : j < dst) : out[j]? = b[j]? := by
  unfold memmove at h
  split_ifs at h with hr
  cases h
  have hd : dst ≤ b.length := by omega
  rw [List.append_assoc, List.getElem?_append_left (by simp; omega),
    List.getElem?_take_of_lt hj]

theorem memmove_length (b out : Buffer) (dst src n : Nat)
    (h : memmove b dst src n = some out) : out.length = b.length := by
  unfold memmove at h
  split_ifs at h with hr
  cases h
  simp
  omega

theorem memmove_moved (b out : Buffer) (dst src n : Nat)
    (h : memmove b dst src n = some out) : (out.drop dst).take n = (b.drop src).take n := by
  unfold memmove at h
  split_ifs at h with hr
  cases h
  rw [List.append_assoc, List.drop_left' (by simp; omega), List.take_left' (by simp; omega)]

/-! ## Dialog template: the claims -/

/-- C7: evaluation of `GetDialogTemplate` in right-to-left mode on a template
whose extended style is `0x10`: the extended style of the result is
`WS_EX_APPWINDOW | WS_EX_LAYOUTRTL` alone, not the bitwise OR `0x00440010` of
these bits with the style of the resource. -/
theorem GetDialogTemplate_rtl_overwrites_exstyle :
    readDW sampleTemplate 2 = some 0x10 ∧
      (GetDialogTemplate (sampleEnv true) (sampleResource sampleTemplate)).bind
        (fun r => r.bind (fun out => readDW out 2)) = some 0x00440000 ∧
      0x10 ||| (WS_EX_APPWINDOW ||| WS_EX_LAYOUTRTL) = 0x00440010 := by
  decide

/-- C8, counterexample: a 4-byte-aligned template of 70 bytes that ends with the
typeface `Segoe UI Symbol` at word index 19. The aligned end of the font field
is offset 72, past the buffer: the `memmove` is asked for `2^64 - 2` bytes and
the patch does not produce a template. -/
theorem fontPatch_fails_on_bare_template :
    sampleTemplateBare.length = 70 ∧ typefaceIndex sampleTemplateBare = some 19 ∧
      wideStringAt sampleTemplateBare 19 SegoeUISymbol ∧
      (fontStores 0 70 sampleTemplateBare 19).map (fun r => r.2) = some (56, 72, 2 ^ 64 - 2) ∧
      fontPatch 0 70 sampleTemplateBare = none := by
  decide

/-- C8 as amended: for every loaded template (buffer at a 4-byte-aligned
address, its size a `DWORD`) whose typeface field is `Segoe UI Symbol` and whose
length reaches the first 4-byte-aligned offset at or after the end of that
field, the font patch produces a buffer of the same length in which the
typeface field reads `Segoe UI` followed by a terminator, every byte before the
typeface field is unchanged, and the bytes from the aligned end of the old font
field up to the end of the buffer appear, in the same order, from the first
4-byte-aligned offset at or after the end of the new name. -/
theorem fontPatch_splices_name (start : Nat) (b : Buffer) (i : Nat)
    (hstart : start % 4 = 0) (hsize : b.length < 2 ^ 32)
    (hi : typefaceIndex b = some i) (hname : wideStringAt b i SegoeUISymbol)
    (hroom : alignUp4 (2 * (i + 16)) ≤ b.length) :
    ∃ out, fontPatch start b.length b = some out ∧ out.length = b.length ∧
      wideStringAt out i SegoeUI ∧ out.take (2 * i) = b.take (2 * i) ∧
      (out.drop (alignUp4 (2 * (i + 9)))).take (b.length - alignUp4 (2 * (i + 16)))
        = b.drop (alignUp4 (2 * (i + 16))) := by
  obtain ⟨b2, hst, hl2, hfar, hw, hw8, _⟩ := fontStores_segoe start b.length b i hname
  have hcmp := wcscmpEq_of_string b SegoeUISymbol i hname.1 hname.2
  rw [moveArgs_aligned _ _ _ hstart] at hst
  have hn : (b.length + 2 ^ 64 - alignUp4 (2 * (i + 16))) % 2 ^ 64
      = b.length - alignUp4 (2 * (i + 16)) := by omega
  rw [hn] at hst
  have hdst : 2 * (i + 9) ≤ alignUp4 (2 * (i + 9)) := by unfold alignUp4; omega
  have hsrc : 2 * (i + 16) ≤ alignUp4 (2 * (i + 16)) := by unfold alignUp4; omega
  have hds : alignUp4 (2 * (i + 9)) < alignUp4 (2 * (i + 16)) := by unfold alignUp4; omega
  have hmv : ∃ out, memmove b2 (alignUp4 (2 * (i + 9))) (alignUp4 (2 * (i + 16)))
      (b.length - alignUp4 (2 * (i + 16))) = some out := by
    unfold memmove
    rw [if_pos (by omega)]
    exact ⟨_, rfl⟩
  obtain ⟨out, hout⟩ := hmv
  have hpre : ∀ j, j < 2 * (i + 8) → out[j]? = b[j]? := by
    intro j hj
    rw [memmove_getElem?_lt _ _ _ _ _ _ hout (by omega), hfar j (Or.inl hj)]
  refine ⟨out, ?_, ?_, ⟨?_, ?_⟩, ?_, ?_⟩
  · simp [fontPatch, hi, hcmp, hst, hout]
  · rw [memmove_length _ _ _ _ _ hout, hl2]
  · intro k hk
    have hk8 : k < 8 := hk
    have hk15 : k < SegoeUISymbol.length := by
      have : SegoeUISymbol.length = 15 := rfl
      omega
    have hb := hname.1 k hk15
    rw [readW_congr b out (i + k) (hpre _ (by omega)) (hpre _ (by omega)), hb]
    interval_cases k <;> rfl
  · have h8 : readW out (i + 8) = readW b2 (i + 8) :=
      readW_congr b2 out (i + 8) (memmove_getElem?_lt _ _ _ _ _ _ hout (by omega))
        (memmove_getElem?_lt _ _ _ _ _ _ hout (by omega))
    exact h8.trans hw8
  · apply List.ext_getElem?
    intro j
    rw [List.getElem?_take, List.getElem?_take]
    split_ifs with hj
    · exact hpre j (by omega)
    · rfl
  · rw [memmove_moved _ _ _ _ _ hout, List.take_of_length_le (by simp; omega)]
    apply List.ext_getElem?
    intro j
    rw [List.getElem?_drop, List.getElem?_drop]
    exact hfar _ (Or.inr (by omega))

theorem fontPatch_splices_name_witness :
    (0 % 4 = 0 ∧ sampleTemplateOdd.length < 2 ^ 32 ∧ typefaceIndex sampleTemplateOdd = some 19 ∧
      wideStringAt sampleTemplateOdd 19 SegoeUISymbol ∧
      alignUp4 (2 * (19 + 16)) ≤ sampleTemplateOdd.length) ∧
    ∃ out, fontPatch 0 sampleTemplateOdd.length sampleTemplateOdd = some out ∧
      out.length = sampleTemplateOdd.length ∧
      wideStringAt out 19 SegoeUI ∧ out.take (2 * 19) = sampleTemplateOdd.take (2 * 19) ∧
      (out.drop (alignUp4 (2 * (19 + 9)))).take
          (sampleTemplateOdd.length - alignUp4 (2 * (19 + 16)))
        = sampleTemplateOdd.drop (alignUp4 (2 * (19 + 16))) :=
  ⟨by decide,
    fontPatch_splices_name 0 sampleTemplateOdd 19 (by decide) (by decide) (by decide)
      (by decide) (by decide)⟩

/-- C9, counterexample: on an 80 byte template with the typeface `Segoe UI
Symbol` at word index 20 the `memmove` goes from offset 72 to offset 60, a
shift of 12 bytes, while the byte lengths of the two names differ by 14. -/
theorem font_shift_is_not_length_difference :
    typefaceIndex sampleTemplate = some 20 ∧ wideStringAt sampleTemplate 20 SegoeUISymbol ∧
      (fontStores 0 80 sampleTemplate 20).map (fun r => r.2) = some (60, 72, 8) ∧
      72 - 60 ≠ 2 * SegoeUISymbol.length - 2 * SegoeUI.length := by
  decide

/-- C9 as amended: for every loaded template (buffer at a 4-byte-aligned
address) whose typeface field is `Segoe UI Symbol`, the patch is the `memmove`
whose source offset is the 4-byte-aligned end of the old font field and whose
destination offset is the 4-byte-aligned end of the new one; it moves the
remainder to the left by 12 bytes when the typeface starts at an even word
index and by 16 bytes when it starts at an odd one. -/
theorem font_shift_aligned (start size : Nat) (b : Buffer) (i : Nat)
    (hstart : start % 4 = 0) (hi : typefaceIndex b = some i)
    (hname : wideStringAt b i SegoeUISymbol) :
    ∃ b2 dst src n, fontStores start size b i = some (b2, dst, src, n) ∧
      fontPatch start size b = memmove b2 dst src n ∧
      src = alignUp4 (2 * (i + SegoeUISymbol.length + 1)) ∧
      dst = alignUp4 (2 * (i + SegoeUI.length + 1)) ∧
      src - dst = (if i % 2 = 0 then 12 else 16) := by
  obtain ⟨b2, hst, _⟩ := fontStores_segoe start size b i hname
  have hcmp := wcscmpEq_of_string b SegoeUISymbol i hname.1 hname.2
  rw [moveArgs_aligned _ _ _ hstart] at hst
  refine ⟨b2, _, _, _, hst, ?_, rfl, rfl, ?_⟩
  · simp [fontPatch, hi, hcmp, hst]
  · unfold alignUp4
    split_ifs <;> omega

theorem font_shift_aligned_witness :
    (0 % 4 = 0 ∧ typefaceIndex sampleTemplateOdd = some 19 ∧
      wideStringAt sampleTemplateOdd 19 SegoeUISymbol) ∧
    ∃ b2 dst src n, fontStores 0 80 sampleTemplateOdd 19 = some (b2, dst, src, n) ∧
      fontPatch 0 80 sampleTemplateOdd = memmove b2 dst src n ∧
      src = alignUp4 (2 * (19 + SegoeUISymbol.length + 1)) ∧
      dst = alignUp4 (2 * (19 + SegoeUI.length + 1)) ∧
      src - dst = (if 19 % 2 = 0 then 12 else 16) :=
  ⟨by decide, font_shift_aligned 0 80 sampleTemplateOdd 19 (by decide) (by decide) (by decide)⟩

/-- C10: for every loaded template whose typeface field, as located by the
header walk, is a string other than `Segoe UI Symbol`, `GetDialogTemplate` with
right-to-left mode disabled returns the loaded copy byte for byte. -/
theorem GetDialogTemplate_other_typeface (env : DialogEnv) (res : LoadedResource)
    (start : Nat) (b : Buffer) (i n : Nat)
    (hrtl : env.right_to_left_mode = false) (hres : res.rcTemplate = some (start, b))
    (hsize : res.size ≠ 0) (hi : typefaceIndex b = some i) (hlen : wcslen b i = some n)
    (hne : ¬ wideStringAt b i SegoeUISymbol) :
    GetDialogTemplate env res = some (some b) := by
  obtain ⟨r, hr⟩ := wcscmpEq_isSome b SegoeUISymbol i n SegoeUISymbol_ne_zero hlen
  have hfalse : r = false := by
    cases r with
    | false => rfl
    | true => exact absurd (string_of_wcscmpEq b SegoeUISymbol i hr) hne
  rw [hfalse] at hr
  have hpatch : fontPatch start res.size b = some b := by
    simp [fontPatch, hi, hr]
  unfold GetDialogTemplate
  simp only [hres, hsize, hrtl, if_false]
  by_cases hthai : (env.fontAvailable && isThai env) = true
  · simp [hthai]
  · simp [hthai, hpatch]

theorem GetDialogTemplate_other_typeface_witness :
    (typefaceIndex sampleTemplateArial = some 20 ∧ wcslen sampleTemplateArial 20 = some 5 ∧
      ¬ wideStringAt sampleTemplateArial 20 SegoeUISymbol) ∧
    GetDialogTemplate (sampleEnv false) (sampleResource sampleTemplateArial)
      = some (some sampleTemplateArial) :=
  ⟨by decide,
    GetDialogTemplate_other_typeface _ _ 0 sampleTemplateArial 20 5 rfl rfl (by decide)
      (by decide) (by decide) (by decide)⟩

/-! ## Taskbar progress, tooltip callback and item counts: the claims -/

/-- C20: when creating the taskbar interface fails, `CreateTaskbarList` returns
FALSE and leaves the stored interface pointer NULL; and with a NULL stored
pointer `SetTaskbarProgressState` and `SetTaskbarProgressValue` return FALSE
for every argument without calling the interface. -/
theorem taskbar_without_interface (hr : Int) (ppv : Nat) (hMainDialog : HWND)
    (SetProgressState : Nat → HWND → Nat → Int)
    (SetProgressValue : Nat → HWND → Nat → Nat → Int) (tbpFlags ullCompleted ullTotal : Nat) :
    (FAILED hr = true → CreateTaskbarList hr ppv = (false, 0)) ∧
      SetTaskbarProgressState 0 hMainDialog SetProgressState tbpFlags = (false, none) ∧
      SetTaskbarProgressValue 0 hMainDialog SetProgressValue ullCompleted ullTotal
        = (false, none) := by
  refine ⟨?_, ?_, ?_⟩
  · intro h
    simp [CreateTaskbarList, h]
  · simp [SetTaskbarProgressState]
  · simp [SetTaskbarProgressValue]

theorem taskbar_without_interface_witness :
    FAILED (-2147467259) = true ∧ CreateTaskbarList (-2147467259) 0 = (false, 0) :=
  ⟨by decide,
    (taskbar_without_interface (-2147467259) 0 0 (fun _ _ _ => 0) (fun _ _ _ _ => 0) 0 0 0).1
      (by decide)⟩

theorem testBit_clear_rtlreading (u j : Nat) (hu : u < 2 ^ 32) :
    (u &&& (0xFFFFFFFF ^^^ TTF_RTLREADING)).testBit j = (u.testBit j && decide (j ≠ 2)) := by
  rw [Nat.testBit_land]
  by_cases hj : j < 32
  · have hm : (0xFFFFFFFF ^^^ TTF_RTLREADING).testBit j = decide (j ≠ 2) := by
      interval_cases j <;> decide
    rw [hm]
  · have h1 : u.testBit j = false :=
      Nat.testBit_lt_two_pow (lt_of_lt_of_le hu (Nat.pow_le_pow_right (by decide) (by omega)))
    simp [h1]

/-- C19: for a slot of the table that is the one found for its tooltip handle
(no slot before it holds the same handle, as with any occupied slot when window
handles are distinct), `TooltipCallback` called for that window with a
`WM_NOTIFY` carrying `TTN_GETDISPINFOW` sets the text pointer of the query to
the text stored in the slot, clears the bit `TTF_RTLREADING` of its flags and no
other, and returns TRUE without delegating; every other message for that
window is delegated to the original procedure stored in the slot. -/
theorem TooltipCallback_answers_query (ttlist : Table) (k : Nat) (hk : k < ttlist.length)
    (message : Nat) (lParam : NMTTDISPINFOW)
    (hfirst : ∀ (j : Nat) (hj : j < ttlist.length), j < k → ttlist[j].hTip ≠ ttlist[k].hTip)
    (hflags : lParam.uFlags < 2 ^ 32) :
    (message = WM_NOTIFY ∧ lParam.code = TTN_GETDISPINFOW →
      ∃ info, TooltipCallback ttlist ttlist[k].hTip message lParam = .answered info ∧
        info.lpszText = ttlist[k].wstring ∧ info.code = lParam.code ∧
        ∀ j, info.uFlags.testBit j = (lParam.uFlags.testBit j && decide (j ≠ 2))) ∧
    (¬ (message = WM_NOTIFY ∧ lParam.code = TTN_GETDISPINFOW) →
      TooltipCallback ttlist ttlist[k].hTip message lParam
        = .delegated ttlist[k].original_proc) := by
  have hidx : ttlist.findIdx (fun s => s.hTip == ttlist[k].hTip) = k := by
    rw [List.findIdx_eq hk]
    refine ⟨by simp, ?_⟩
    intro j hjk
    have := hfirst j (by omega) hjk
    simpa using this
  have hne : ¬ k = ttlist.length := by omega
  constructor
  · intro hq
    refine ⟨⟨lParam.code, ttlist[k].wstring,
      lParam.uFlags &&& (0xFFFFFFFF ^^^ TTF_RTLREADING)⟩, ?_, rfl, rfl, ?_⟩
    · simp only [TooltipCallback, scan, MAX_TOOLTIPS, hidx, hne, if_false, hq, and_self, if_true]
      rw [List.getD_eq_getElem _ _ hk]
    · intro j
      exact testBit_clear_rtlreading _ _ hflags
  · intro hq
    simp only [TooltipCallback, scan, MAX_TOOLTIPS, hidx, hne, if_false, hq]
    rw [List.getD_eq_getElem _ _ hk]

theorem TooltipCallback_answers_query_witness :
    (∀ (j : Nat) (hj : j < sampleFullTable.length), j < 1 →
        sampleFullTable[j].hTip ≠ sampleFullTable[1].hTip) ∧
      TooltipCallback sampleFullTable 11 WM_NOTIFY ⟨TTN_GETDISPINFOW, some [88], 0xF⟩
        = .answered ⟨TTN_GETDISPINFOW, none, 0xB⟩ ∧
      TooltipCallback sampleFullTable sampleFullTable[1].hTip 15 ⟨0, none, 0⟩
        = .delegated sampleFullTable[1].original_proc :=
  ⟨by decide, by decide,
    (TooltipCallback_answers_query sampleFullTable 1 (by decide) 15 ⟨0, none, 0⟩ (by decide)
      (by decide)).2 (by decide)⟩

/-- C15: evaluation of the item-count guard of both dialogs on a request for one
item more than the number `last - first + 1` of item controls: the count
becomes `last - first`, one less than that number. A count up to the number of
controls is kept. -/
theorem item_count_clamped_one_short (first mask : Int) (k : Nat) (checked : Nat → Bool) :
    (CustomSelectionCallback_INITDIALOG first (first + k) mask
        { nDialogItems := (k : Int) + 2, checked := checked }).nDialogItems = (k : Int) ∧
      ListCallback_INITDIALOG first (first + k) ((k : Int) + 2) = (k : Int) ∧
      (CustomSelectionCallback_INITDIALOG first (first + k) mask
        { nDialogItems := (k : Int) + 1, checked := checked }).nDialogItems = (k : Int) + 1 ∧
      ListCallback_INITDIALOG first (first + k) ((k : Int) + 1) = (k : Int) + 1 := by
  simp only [CustomSelectionCallback_INITDIALOG, ListCallback_INITDIALOG, clampItems]
  have h1 : (k : Int) + 2 > first + k - first + 1 := by omega
  have h2 : ¬ ((k : Int) + 1 > first + k - first + 1) := by omega
  simp only [h1, h2, if_true, if_false]
  refine ⟨by omega, by omega, trivial, trivial⟩

/-! ## Selection dialog: the bit mask -/

theorem shl32_two_pow (i : Nat) (hi : i ≤ 30) : shl32 (2 ^ i) = 2 ^ (i + 1) := by
  unfold shl32
  have h : 2 ^ (i + 1) ≤ 2 ^ 31 := Nat.pow_le_pow_right (by decide) (by omega)
  rw [← Nat.pow_succ]
  exact Nat.mod_eq_of_lt (by omega)

theorem bitSum_lt (checked : Nat → Bool) (n : Nat) :
    Finset.sum (Finset.range n) (fun i => if checked i then 2 ^ i else 0) < 2 ^ n := by
  induction n with
  | zero => simp
  | succ n ih =>
    rw [Finset.sum_range_succ, Nat.pow_succ]
    split_ifs <;> omega

theorem readChecks_eq (checked : Nat → Bool) (k i r : Nat) (hik : i + k ≤ 31)
    (hr : r = Finset.sum (Finset.range i) (fun j => if checked j then 2 ^ j else 0)) :
    readChecks checked k i (2 ^ i) r
      = Finset.sum (Finset.range (i + k)) (fun j => if checked j then 2 ^ j else 0) := by
  induction k generalizing i r with
  | zero => simpa [readChecks] using hr
  | succ k ih =>
    have hlt := bitSum_lt checked i
    have hpow : 2 ^ (i + 1) ≤ 2 ^ 31 := Nat.pow_le_pow_right (by decide) (by omega)
    have hpow' : 2 ^ (i + 1) = 2 ^ i * 2 := Nat.pow_succ 2 i
    simp only [readChecks]
    rw [shl32_two_pow i (by omega), show i + (k + 1) = (i + 1) + k by omega]
    apply ih (i + 1) _ (by omega)
    rw [Finset.sum_range_succ, ← hr]
    by_cases hc : checked i = true
    · simp only [hc, if_true]
      unfold add32
      exact Nat.mod_eq_of_lt (by omega)
    · simp [hc]

theorem testBit_bitSum (checked : Nat → Bool) (n j : Nat) :
    (Finset.sum (Finset.range n) (fun i => if checked i then 2 ^ i else 0)).testBit j
      = (decide (j < n) && checked j) := by
  induction n with
  | zero => simp
  | succ n ih =>
    have hlt := bitSum_lt checked n
    rw [Finset.sum_range_succ]
    generalize Finset.sum (Finset.range n) (fun i => if checked i then 2 ^ i else 0) = v
      at ih hlt
    rcases Nat.lt_trichotomy j n with hj | hj | hj
    · have hmod : (v + if checked n = true then 2 ^ n else 0) % 2 ^ n = v := by
        split_ifs
        · rw [Nat.add_mod_right]; exact Nat.mod_eq_of_lt hlt
        · exact Nat.mod_eq_of_lt hlt
      have h1 := Nat.testBit_mod_two_pow (v + if checked n = true then 2 ^ n else 0) n j
      rw [hmod] at h1
      simp only [hj, decide_True, Bool.true_and] at h1
      rw [← h1, ih]
      simp [hj, Nat.lt_succ_of_lt hj]
    · subst hj
      by_cases hc : checked j = true
      · simp only [hc, if_true]
        rw [Nat.add_comm, Nat.testBit_two_pow_add_eq, Nat.testBit_lt_two_pow hlt]
        simp
      · have hc' : checked j = false := by simpa using hc
        simp only [hc', Bool.false_eq_true, if_false, Nat.add_zero]
        rw [Nat.testBit_lt_two_pow hlt]
        simp
    · have hbig : (v + if checked n = true then 2 ^ n else 0) < 2 ^ j := by
        have h2 : 2 ^ (n + 1) ≤ 2 ^ j := Nat.pow_le_pow_right (by decide) (by omega)
        have h3 : 2 ^ (n + 1) = 2 ^ n * 2 := Nat.pow_succ 2 n
        split_ifs <;> omega
      rw [Nat.testBit_lt_two_pow hbig]
      have : ¬ j < n + 1 := by omega
      simp [this]

theorem toInt32_of_lt (v : Nat) (h : v < 2 ^ 31) : toInt32 v = (v : Int) := by
  unfold toInt32
  have h1 : v % 2 ^ 32 = v := Nat.mod_eq_of_lt (by omega)
  rw [h1, if_pos h]

/-- The pattern read back by the `IDOK` loop, for at most 31 choices. -/
theorem readChecks_all (checked : Nat → Bool) (n : Nat) (hn : n ≤ 31) :
    readChecks checked n 0 1 0
      = Finset.sum (Finset.range n) (fun j => if checked j then 2 ^ j else 0) := by
  have := readChecks_eq checked n 0 0 (by omega) (by simp)
  simpa using this

theorem setChecks_eq (mask : Nat) (k i : Nat) (checked : Nat → Bool) (hik : i + k ≤ 31) (j : Nat) :
    setChecks mask k i (2 ^ i) checked j
      = if i ≤ j ∧ j < i + k then (2 ^ j &&& mask != 0) else checked j := by
  induction k generalizing i checked with
  | zero =>
    have : ¬ (i ≤ j ∧ j < i) := by omega
    simp [setChecks, this]
  | succ k ih =>
    simp only [setChecks]
    rw [shl32_two_pow i (by omega), ih (i + 1) _ (by omega)]
    by_cases h1 : i + 1 ≤ j ∧ j < i + 1 + k
    · have h2 : i ≤ j ∧ j < i + (k + 1) := by omega
      simp [h1, h2]
    · by_cases hji : j = i
      · subst hji
        have h2 : j ≤ j ∧ j < j + (k + 1) := by omega
        simp [h1, h2]
      · have h2 : ¬ (i ≤ j ∧ j < i + (k + 1)) := by omega
        simp [h1, h2, Function.update_noteq hji]

theorem sum_mask_bits (mask n : Nat) :
    Finset.sum (Finset.range n) (fun j => if (2 ^ j &&& mask != 0) = true then 2 ^ j else 0)
      = mask % 2 ^ n := by
  induction n with
  | zero => simp [Nat.mod_one]
  | succ n ih =>
    rw [Finset.sum_range_succ, ih, Nat.mod_pow_succ, Nat.two_pow_and, Nat.toNat_testBit]
    have hpos : 0 < 2 ^ n := Nat.two_pow_pos n
    rcases Nat.mod_two_eq_zero_or_one (mask / 2 ^ n) with h | h
    · simp [h]
    · simp [h, Nat.ne_of_gt hpos]

theorem ofInt32_mod (mask : Int) (n : Nat) (hn : n ≤ 32) :
    ((ofInt32 mask % 2 ^ n : Nat) : Int) = mask % 2 ^ n := by
  unfold ofInt32
  have hnn : (0 : Int) ≤ mask % 2 ^ 32 := Int.emod_nonneg _ (by norm_num)
  have hdvd : (2 : Int) ^ n ∣ 2 ^ 32 := pow_dvd_pow 2 hn
  rw [Int.natCast_mod, Int.toNat_of_nonneg hnn]
  push_cast
  exact Int.emod_emod_of_dvd mask hdvd

theorem clampItems_le (first last size : Int) (h : last - first + 1 ≤ 31) :
    clampItems first last size ≤ 31 := by
  unfold clampItems
  split_ifs <;> omega

/-- The value given to `EndDialog` by the `IDOK` case, at most 31 choices being
displayed. -/
theorem selection_COMMAND_OK (s : SelectionState) (hn : s.nDialogItems ≤ 31) :
    ∃ v : Nat, CustomSelectionCallback_COMMAND s IDOK = some (v : Int) ∧
      v = Finset.sum (Finset.range s.nDialogItems.toNat)
            (fun i => if s.checked i then 2 ^ i else 0) ∧
      ∀ i : Nat, v.testBit i = (decide ((i : Int) < s.nDialogItems) && s.checked i) := by
  have hn' : s.nDialogItems.toNat ≤ 31 := by omega
  refine ⟨_, ?_, rfl, ?_⟩
  · have hlt := bitSum_lt s.checked s.nDialogItems.toNat
    have hpow : 2 ^ s.nDialogItems.toNat ≤ 2 ^ 31 := Nat.pow_le_pow_right (by decide) hn'
    simp only [CustomSelectionCallback_COMMAND, if_true]
    rw [readChecks_all _ _ hn', toInt32_of_lt _ (by omega)]
  · intro i
    rw [testBit_bitSum]
    have : (i < s.nDialogItems.toNat) ↔ ((i : Int) < s.nDialogItems) := by omega
    simp [this]

/-- C13: when the selection dialog (of at most 31 choice controls, an `int`
having 32 bits) is closed with OK, the value it returns is the sum of `2^i` over
the choice controls `i` that are checked at that moment, among the displayed
ones: bit `i` of it is set if and only if `i` is below the number of displayed
choices and choice `i` is checked. -/
theorem selection_OK_value (first last size mask : Int) (checked0 : Nat → Bool)
    (user : (Nat → Bool) → (Nat → Bool)) (hctl : last - first + 1 ≤ 31) :
    ∃ v : Nat, CustomSelectionDialog first last size mask checked0 user IDOK = some (v : Int) ∧
      v = Finset.sum (Finset.range (clampItems first last size).toNat)
            (fun i => if user (CustomSelectionCallback_INITDIALOG first last mask
              { nDialogItems := size, checked := checked0 }).checked i then 2 ^ i else 0) ∧
      ∀ i : Nat, v.testBit i = (decide ((i : Int) < clampItems first last size) &&
        user (CustomSelectionCallback_INITDIALOG first last mask
          { nDialogItems := size, checked := checked0 }).checked i) := by
  have hn := clampItems_le first last size hctl
  exact selection_COMMAND_OK
    { nDialogItems := clampItems first last size,
      checked := user (CustomSelectionCallback_INITDIALOG first last mask
        { nDialogItems := size, checked := checked0 }).checked } hn

theorem selection_OK_value_witness :
    (1015 : Int) - 1000 + 1 ≤ 31 ∧
      CustomSelectionDialog 1000 1015 3 0 (fun _ => false) (fun _ => sampleSelection.checked)
        IDOK = some 5 ∧
      ∃ v : Nat, CustomSelectionDialog 1000 1015 3 0 (fun _ => false)
          (fun _ => sampleSelection.checked) IDOK = some (v : Int) ∧
        v = Finset.sum (Finset.range (clampItems 1000 1015 3).toNat)
              (fun i => if (fun _ => sampleSelection.checked)
                (CustomSelectionCallback_INITDIALOG 1000 1015 0
                  { nDialogItems := 3, checked := fun _ => false }).checked i
                then 2 ^ i else 0) ∧
        ∀ i : Nat, v.testBit i = (decide ((i : Int) < clampItems 1000 1015 3) &&
          (fun _ => sampleSelection.checked) (CustomSelectionCallback_INITDIALOG 1000 1015 0
            { nDialogItems := 3, checked := fun _ => false }).checked i) :=
  ⟨by decide, by decide,
    selection_OK_value 1000 1015 3 0 (fun _ => false) (fun _ => sampleSelection.checked)
      (by decide)⟩

/-- C14, counterexample: with 16 choice controls, a selection dialog opened with
17 choices and the initial mask `2^16` (the last of the 17 checked), closed
with OK without any change by the user, returns 0; so does a dialog opened with
2 choices and the initial mask 4. -/
theorem selection_mask_not_returned :
    CustomSelectionDialog 1000 1015 17 65536 (fun _ => false) id IDOK = some 0 ∧
      CustomSelectionDialog 1000 1015 17 65536 (fun _ => false) id IDOK ≠ some 65536 ∧
      CustomSelectionDialog 1000 1015 2 4 (fun _ => false) id IDOK = some 0 ∧
      CustomSelectionDialog 1000 1015 2 4 (fun _ => false) id IDOK ≠ some 4 := by
  decide

/-- C14 as amended: for every selection dialog (of at most 31 choice controls,
an `int` having 32 bits) opened with a mask `m` and displaying `n` choices, if
the user changes no choice and presses OK, `CustomSelectionDialog` returns the
bits of `m` below `n`, that is `m mod 2^n`; it returns exactly `m` when `m` has
no bit outside the displayed choices (`0 ≤ m < 2^n`). -/
theorem selection_unchanged_returns_mask_bits (first last size mask : Int)
    (checked0 : Nat → Bool) (hctl : last - first + 1 ≤ 31) :
    CustomSelectionDialog first last size mask checked0 id IDOK
        = some (mask % 2 ^ (clampItems first last size).toNat) ∧
      (0 ≤ mask → mask < 2 ^ (clampItems first last size).toNat →
        CustomSelectionDialog first last size mask checked0 id IDOK = some mask) := by
  have hn := clampItems_le first last size hctl
  have hn' : (clampItems first last size).toNat ≤ 31 := by omega
  have hval : CustomSelectionDialog first last size mask checked0 id IDOK
      = some (mask % 2 ^ (clampItems first last size).toNat) := by
    simp only [CustomSelectionDialog, CustomSelectionCallback_INITDIALOG,
      CustomSelectionCallback_COMMAND, if_true, id]
    generalize (clampItems first last size).toNat = n at hn'
    have hsum : Finset.sum (Finset.range n)
        (fun j => if setChecks (ofInt32 mask) n 0 1 checked0 j = true then 2 ^ j else 0)
        = ofInt32 mask % 2 ^ n := by
      rw [← sum_mask_bits]
      apply Finset.sum_congr rfl
      intro j hj
      have hj' : j < n := Finset.mem_range.mp hj
      have h := setChecks_eq (ofInt32 mask) n 0 checked0 (by omega) j
      have hc : 0 ≤ j ∧ j < 0 + n := by omega
      rw [pow_zero, if_pos hc] at h
      rw [h]
    have hlt : ofInt32 mask % 2 ^ n < 2 ^ n := Nat.mod_lt _ (Nat.two_pow_pos n)
    have hpow : 2 ^ n ≤ 2 ^ 31 := Nat.pow_le_pow_right (by decide) hn'
    rw [readChecks_all _ _ hn', hsum, toInt32_of_lt _ (by omega), ofInt32_mod _ _ (by omega)]
  refine ⟨hval, ?_⟩
  intro h0 hlt
  rw [hval, Int.emod_eq_of_lt h0 hlt]

theorem selection_unchanged_returns_mask_bits_witness :
    (1015 : Int) - 1000 + 1 ≤ 31 ∧ (0 : Int) ≤ 5 ∧
      (5 : Int) < 2 ^ (clampItems 1000 1015 3).toNat ∧
      CustomSelectionDialog 1000 1015 3 5 (fun _ => false) id IDOK = some 5 :=
  ⟨by decide, by decide, by decide,
    (selection_unchanged_returns_mask_bits 1000 1015 3 5 (fun _ => false) (by decide)).2
      (by decide) (by decide)⟩

/-! ## Dialog template: what the header walk and the patch depend on -/

theorem fontPatch_other (start size : Nat) (b : Buffer) (i : Nat)
    (hi : typefaceIndex b = some i) (hlen : (wcslen b i).isSome = true)
    (hne : ¬ wideStringAt b i SegoeUISymbol) : fontPatch start size b = some b := by
  obtain ⟨n, hn⟩ := Option.isSome_iff_exists.mp hlen
  obtain ⟨r, hr⟩ := wcscmpEq_isSome b SegoeUISymbol i n SegoeUISymbol_ne_zero hn
  have hfalse : r = false := by
    cases r with
    | false => rfl
    | true => exact absurd (string_of_wcscmpEq b SegoeUISymbol i hr) hne
  rw [hfalse] at hr
  simp [fontPatch, hi, hr]

theorem wcslen_congr (b d : Buffer) (n i : Nat) (hlen : wcslen b i = some n)
    (h : ∀ j, 2 * i ≤ j → j < 2 * (i + n + 1) → d[j]? = b[j]?) : wcslen d i = some n := by
  induction n generalizing i with
  | zero =>
    rw [wcslen_unfold] at hlen ⊢
    rw [readW_congr b d i (h _ (by omega) (by omega)) (h _ (by omega) (by omega))]
    cases hr : readW b i with
    | none => simp [hr] at hlen
    | some w =>
      simp only [hr] at hlen ⊢
      by_cases hw : w = 0
      · simp [hw]
      · simp only [hw, if_false] at hlen
        cases hrec : wcslen b (i + 1) with
        | none => simp [hrec] at hlen
        | some m => simp [hrec] at hlen
  | succ n ih =>
    rw [wcslen_unfold] at hlen ⊢
    rw [readW_congr b d i (h _ (by omega) (by omega)) (h _ (by omega) (by omega))]
    cases hr : readW b i with
    | none => simp [hr] at hlen
    | some w =>
      simp only [hr] at hlen ⊢
      by_cases hw : w = 0
      · simp [hw] at hlen
      · simp only [hw, if_false] at hlen ⊢
        cases hrec : wcslen b (i + 1) with
        | none => simp [hrec] at hlen
        | some m =>
          simp [hrec] at hlen
          subst hlen
          rw [ih (i + 1) hrec (fun j h1 h2 => h j (by omega) (by omega))]
          rfl

theorem skipField_congr (b d : Buffer) (i i1 : Nat) (hs : skipField b i = some i1)
    (h : ∀ j, 2 * i ≤ j → j < 2 * i1 → d[j]? = b[j]?) :
    skipField d i = some i1 ∧ i < i1 := by
  unfold skipField at hs ⊢
  cases hr : readW b i with
  | none => simp [hr] at hs
  | some w =>
    simp only [hr] at hs
    by_cases hw : w = 0xFFFF
    · simp only [hw, if_true] at hs
      have hi1 : i1 = i + 2 := by simpa using hs.symm
      subst hi1
      rw [readW_congr b d i (h _ (by omega) (by omega)) (h _ (by omega) (by omega)), hr]
      simp [hw]
    · simp only [hw, if_false] at hs
      cases hl : wcslen b i with
      | none => simp [hl] at hs
      | some n =>
        simp [hl] at hs
        subst hs
        rw [readW_congr b d i (h _ (by omega) (by omega)) (h _ (by omega) (by omega)), hr]
        simp only [hw, if_false]
        rw [wcslen_congr b d n i hl (fun j h1 h2 => h j h1 (by omega))]
        exact ⟨by simp, by omega⟩

/-- The header walk only looks at the bytes from offset 28 up to the typeface. -/
theorem typefaceIndex_congr (b d : Buffer) (i : Nat) (hi : typefaceIndex b = some i)
    (h : ∀ j, 28 ≤ j → j < 2 * i → d[j]? = b[j]?) : typefaceIndex d = some i := by
  unfold typefaceIndex at hi ⊢
  cases h1 : skipField b 14 with
  | none => simp [h1] at hi
  | some i1 =>
    simp only [h1] at hi
    cases h2 : skipField b i1 with
    | none => simp [h2] at hi
    | some i2 =>
      simp only [h2] at hi
      have hi' : i = i2 + 3 := by simpa using hi.symm
      subst hi'
      have hlt2 := (skipField_congr b b i1 i2 h2 (fun _ _ _ => rfl)).2
      obtain ⟨hd1, hlt1⟩ := skipField_congr b d 14 i1 h1 (fun j a c => h j (by omega) (by omega))
      obtain ⟨hd2, _⟩ := skipField_congr b d i1 i2 h2 (fun j a c => h j (by omega) (by omega))
      simp [hd1, hd2]

/-- What a successful patch of a `Segoe UI Symbol` template leaves before the
destination of the move. -/
theorem fontPatch_segoe_result (start size : Nat) (b out : Buffer) (i : Nat)
    (hstart : start % 4 = 0) (hi : typefaceIndex b = some i)
    (hname : wideStringAt b i SegoeUISymbol) (h : fontPatch start size b = some out) :
    wideStringAt out i SegoeUI ∧ ∀ j, j < 2 * (i + 8) → out[j]? = b[j]? := by
  obtain ⟨b2, hst, hl2, hfar, hw, hw8, _⟩ := fontStores_segoe start size b i hname
  have hcmp := wcscmpEq_of_string b SegoeUISymbol i hname.1 hname.2
  rw [moveArgs_aligned _ _ _ hstart] at hst
  have hout : memmove b2 (alignUp4 (2 * (i + 9))) (alignUp4 (2 * (i + 16)))
      ((size + 2 ^ 64 - alignUp4 (2 * (i + 16))) % 2 ^ 64) = some out := by
    simpa [fontPatch, hi, hcmp, hst] using h
  have hdst : 2 * (i + 9) ≤ alignUp4 (2 * (i + 9)) := by unfold alignUp4; omega
  have hpre : ∀ j, j < 2 * (i + 8) → out[j]? = b[j]? := by
    intro j hj
    rw [memmove_getElem?_lt _ _ _ _ _ _ hout (by omega), hfar j (Or.inl hj)]
  refine ⟨⟨?_, ?_⟩, hpre⟩
  · intro k hk
    have hk8 : k < 8 := hk
    have hk15 : k < SegoeUISymbol.length := by
      have : SegoeUISymbol.length = 15 := rfl
      omega
    have hb := hname.1 k hk15
    rw [readW_congr b out (i + k) (hpre _ (by omega)) (hpre _ (by omega)), hb]
    interval_cases k <;> rfl
  · have h8 : readW out (i + 8) = readW b2 (i + 8) :=
      readW_congr b2 out (i + 8) (memmove_getElem?_lt _ _ _ _ _ _ hout (by omega))
        (memmove_getElem?_lt _ _ _ _ _ _ hout (by omega))
    exact h8.trans hw8

theorem wcslen_isSome_of_wideStringAt (b : Buffer) (i : Nat) (name : List Nat)
    (hname : ∀ x ∈ name, x ≠ 0) (h : wideStringAt b i name) : wcslen b i = some name.length := by
  apply wcslen_of_string
  · intro k hk
    exact ⟨name[k], hname _ (List.getElem_mem _), h.1 k hk⟩
  · exact h.2

theorem not_SegoeUISymbol_of_SegoeUI (b : Buffer) (i : Nat) (h : wideStringAt b i SegoeUI) :
    ¬ wideStringAt b i SegoeUISymbol := by
  intro hs
  have h1 : readW b (i + 8) = some 0 := h.2
  have h2 : readW b (i + 8) = some 32 := hs.1 8 (by decide)
  rw [h1] at h2
  exact absurd h2 (by decide)

theorem skipField_of_fieldHasSize (b : Buffer) (j s : Nat) (h : fieldHasSize b j s) :
    skipField b j = some (j + s) := by
  rcases h with ⟨hr, hs⟩ | ⟨hr, hs, hstr⟩
  · simp [skipField, hr, hs]
  · have hlen : wcslen b j = some (s - 1) := by
      apply wcslen_of_string
      · intro k hk
        obtain ⟨h1, h2⟩ := hstr.1 k hk
        obtain ⟨w, hw⟩ := Option.isSome_iff_exists.mp h1
        exact ⟨w, fun h0 => h2 (by rw [hw, h0]), hw⟩
      · exact hstr.2
    have hsome : ∃ w, readW b j = some w := by
      by_cases h0 : s - 1 = 0
      · have := hstr.2
        rw [h0] at this
        exact ⟨0, by simpa using this⟩
      · obtain ⟨h1, _⟩ := hstr.1 0 (by omega)
        obtain ⟨w, hw⟩ := Option.isSome_iff_exists.mp h1
        exact ⟨w, by simpa using hw⟩
    obtain ⟨w, hw⟩ := hsome
    have hne : w ≠ 0xFFFF := fun h0 => hr (by rw [hw, h0])
    simp only [skipField, hw, hne, if_false, hlen, Option.map_some']
    congr 1
    omega

/-! ## Dialog template: the claims on idempotence, bounds and the header walk -/

/-- C11: the font patch applied to a buffer whose typeface already is `Segoe UI`
leaves the buffer unchanged; in particular, applied to the output of a patch of
a `Segoe UI Symbol` template (4-byte-aligned buffer) it returns that output
again, so that patching twice gives the same bytes as patching once. -/
theorem fontPatch_idempotent (start size : Nat) (b : Buffer) (i : Nat)
    (hi : typefaceIndex b = some i) :
    (wideStringAt b i SegoeUI → fontPatch start size b = some b) ∧
      (∀ out, start % 4 = 0 → wideStringAt b i SegoeUISymbol →
        fontPatch start size b = some out → fontPatch start size out = some out) := by
  have hpart : ∀ (d : Buffer), typefaceIndex d = some i → wideStringAt d i SegoeUI →
      fontPatch start size d = some d := by
    intro d hd hname
    apply fontPatch_other start size d i hd
    · rw [wcslen_isSome_of_wideStringAt d i SegoeUI (by decide) hname]
      rfl
    · exact not_SegoeUISymbol_of_SegoeUI d i hname
  refine ⟨hpart b hi, ?_⟩
  intro out hstart hname hout
  obtain ⟨hnew, hpre⟩ := fontPatch_segoe_result start size b out i hstart hi hname hout
  apply hpart out _ hnew
  exact typefaceIndex_congr b out i hi (fun j _ hj => hpre j (by omega))

theorem fontPatch_idempotent_witness :
    (typefaceIndex sampleTemplateSegoeUI = some 20 ∧
      wideStringAt sampleTemplateSegoeUI 20 SegoeUI ∧
      fontPatch 0 68 sampleTemplateSegoeUI = some sampleTemplateSegoeUI) ∧
    (typefaceIndex sampleTemplate = some 20 ∧ wideStringAt sampleTemplate 20 SegoeUISymbol ∧
      fontPatch 0 80 sampleTemplate = some ((fontPatch 0 80 sampleTemplate).getD []) ∧
      fontPatch 0 80 ((fontPatch 0 80 sampleTemplate).getD [])
        = some ((fontPatch 0 80 sampleTemplate).getD [])) :=
  ⟨⟨by decide, by decide,
      (fontPatch_idempotent 0 68 sampleTemplateSegoeUI 20 (by decide)).1 (by decide)⟩,
    ⟨by decide, by decide, by decide,
      (fontPatch_idempotent 0 80 sampleTemplate 20 (by decide)).2 _ (by decide) (by decide)
        (by decide)⟩⟩

/-- C16: for every loaded template (buffer at a 4-byte-aligned address, its
size a `DWORD`) whose typeface is `Segoe UI Symbol` and whose length reaches the
4-byte-aligned end of that font field, the compacting move copies exactly
`size - src` bytes, `src` being the aligned end of the old font field, to a
destination `dst < src`: the bytes read end at offset `size`, the bytes written
end at offset `size - (src - dst)`, and the patched template has the length of
the loaded buffer. -/
theorem font_move_within_buffer (start : Nat) (b : Buffer) (i : Nat)
    (hstart : start % 4 = 0) (hsize : b.length < 2 ^ 32)
    (hi : typefaceIndex b = some i) (hname : wideStringAt b i SegoeUISymbol)
    (hroom : alignUp4 (2 * (i + 16)) ≤ b.length) :
    ∃ b2 dst src n out, fontStores start b.length b i = some (b2, dst, src, n) ∧
      b2.length = b.length ∧ src = alignUp4 (2 * (i + 16)) ∧ n = b.length - src ∧
      dst < src ∧ src + n = b.length ∧ dst + n = b.length - (src - dst) ∧
      memmove b2 dst src n = some out ∧ fontPatch start b.length b = some out ∧
      out.length = b.length := by
  obtain ⟨b2, hst, hl2, _⟩ := fontStores_segoe start b.length b i hname
  have hcmp := wcscmpEq_of_string b SegoeUISymbol i hname.1 hname.2
  rw [moveArgs_aligned _ _ _ hstart] at hst
  have hn : (b.length + 2 ^ 64 - alignUp4 (2 * (i + 16))) % 2 ^ 64
      = b.length - alignUp4 (2 * (i + 16)) := by omega
  rw [hn] at hst
  have hds : alignUp4 (2 * (i + 9)) < alignUp4 (2 * (i + 16)) := by unfold alignUp4; omega
  have hmv : ∃ out, memmove b2 (alignUp4 (2 * (i + 9))) (alignUp4 (2 * (i + 16)))
      (b.length - alignUp4 (2 * (i + 16))) = some out := by
    unfold memmove
    rw [if_pos (by omega)]
    exact ⟨_, rfl⟩
  obtain ⟨out, hout⟩ := hmv
  refine ⟨b2, _, _, _, out, hst, hl2, rfl, rfl, hds, by omega, by omega, hout, ?_, ?_⟩
  · simp [fontPatch, hi, hcmp, hst, hout]
  · rw [memmove_length _ _ _ _ _ hout, hl2]

theorem font_move_within_buffer_witness :
    (0 % 4 = 0 ∧ sampleTemplate.length < 2 ^ 32 ∧ typefaceIndex sampleTemplate = some 20 ∧
      wideStringAt sampleTemplate 20 SegoeUISymbol ∧
      alignUp4 (2 * (20 + 16)) ≤ sampleTemplate.length) ∧
    ∃ b2 dst src n out,
      fontStores 0 sampleTemplate.length sampleTemplate 20 = some (b2, dst, src, n) ∧
      b2.length = sampleTemplate.length ∧ src = alignUp4 (2 * (20 + 16)) ∧
      n = sampleTemplate.length - src ∧
      dst < src ∧ src + n = sampleTemplate.length ∧
      dst + n = sampleTemplate.length - (src - dst) ∧
      memmove b2 dst src n = some out ∧
      fontPatch 0 sampleTemplate.length sampleTemplate = some out ∧
      out.length = sampleTemplate.length :=
  ⟨by decide,
    font_move_within_buffer 0 sampleTemplate 20 (by decide) (by decide) (by decide) (by decide)
      (by decide)⟩

/-- C17: `GetDialogTemplate` locates the typeface string at word index
`14 + s(class) + s(title) + 3`, where the class field starts at word 14, the
title right after it, and `s(field)` is 2 when the first word of the field is
`0xFFFF` and otherwise the length of the terminated string plus 1. -/
theorem typefaceIndex_by_field_sizes (b : Buffer) (sc st : Nat)
    (hc : fieldHasSize b 14 sc) (ht : fieldHasSize b (14 + sc) st) :
    typefaceIndex b = some (14 + sc + st + 3) := by
  unfold typefaceIndex
  rw [skipField_of_fieldHasSize b 14 sc hc]
  simp only
  rw [skipField_of_fieldHasSize b (14 + sc) st ht]

theorem typefaceIndex_by_field_sizes_witness :
    (fieldHasSize sampleTemplateOrdinal 14 2 ∧ fieldHasSize sampleTemplateOrdinal (14 + 2) 2) ∧
      typefaceIndex sampleTemplateOrdinal = some (14 + 2 + 2 + 3) :=
  ⟨by decide,
    typefaceIndex_by_field_sizes sampleTemplateOrdinal 2 2 (by decide) (by decide)⟩

/-! ## Dialog template: the right-to-left step and the Thai exception -/

theorem writeDW_spec (b d : Buffer) (i v : Nat) (h : writeDW b i v = some d) :
    d.length = b.length ∧ ∀ j, j < 4 * i ∨ 4 * i + 4 ≤ j → d[j]? = b[j]? := by
  unfold writeDW at h
  split_ifs at h with hlt
  cases h
  refine ⟨by simp, ?_⟩
  intro j hj
  rw [List.getElem?_set, List.getElem?_set, List.getElem?_set, List.getElem?_set]
  have h0 : ¬ 4 * i = j := by omega
  have h1 : ¬ 4 * i + 1 = j := by omega
  have h2 : ¬ 4 * i + 2 = j := by omega
  have h3 : ¬ 4 * i + 3 = j := by omega
  simp [h0, h1, h2, h3]

theorem rtlStep_spec (env : DialogEnv) (b b1 : Buffer) (h : rtlStep env b = some b1) :
    b1.length = b.length ∧ (∀ j, j < 8 ∨ 12 ≤ j → b1[j]? = b[j]?) ∧
      (env.right_to_left_mode = false → b1 = b) := by
  unfold rtlStep at h
  by_cases hr : env.right_to_left_mode = true
  · simp only [hr, if_true] at h
    obtain ⟨h1, h2⟩ := writeDW_spec b b1 2 _ h
    exact ⟨h1, fun j hj => h2 j (by omega), fun hf => by simp [hr] at hf⟩
  · simp only [hr, if_false] at h
    have hb : b = b1 := by simpa using h
    subst hb
    exact ⟨rfl, fun _ _ => rfl, fun _ => rfl⟩

theorem rtlStep_isSome (env : DialogEnv) (b : Buffer)
    (h : env.right_to_left_mode = true → 12 ≤ b.length) : ∃ b1, rtlStep env b = some b1 := by
  unfold rtlStep
  by_cases hr : env.right_to_left_mode = true
  · have := h hr
    simp only [hr, if_true, writeDW]
    rw [if_pos (by omega)]
    exact ⟨_, rfl⟩
  · simp [hr]

theorem GetDialogTemplate_eq (env : DialogEnv) (res : LoadedResource) (start : Nat)
    (b : Buffer) (hres : res.rcTemplate = some (start, b)) (hsize : res.size ≠ 0) :
    GetDialogTemplate env res =
      (rtlStep env b).bind (fun b1 =>
        if (env.fontAvailable && isThai env) = true then some (some b1)
        else (fontPatch start res.size b1).map some) := by
  unfold GetDialogTemplate rtlStep
  simp only [hres, hsize, if_false]
  cases (if env.right_to_left_mode = true then
      writeDW b 2 (WS_EX_APPWINDOW ||| WS_EX_LAYOUTRTL) else some b) <;> rfl

theorem isThai_iff (env : DialogEnv) :
    isThai env = true ↔ env.selected_locale = some (some "th-TH") := by
  unfold isThai
  cases h : env.selected_locale with
  | none => simp
  | some o =>
    cases o with
    | none => simp
    | some str => simp

/-- C18: when the font `Segoe UI Symbol` is available and a locale whose
identifier is `th-TH` is selected, `GetDialogTemplate` returns the template
without touching the font field: with right-to-left mode off it is the loaded
copy byte for byte, and otherwise (the template holding its extended-style
DWORD) only the bytes 8 to 11 may differ. In every other case the result is that
of the font substitution applied after the right-to-left step. -/
theorem GetDialogTemplate_thai_exception (env : DialogEnv) (res : LoadedResource)
    (start : Nat) (b : Buffer) (hres : res.rcTemplate = some (start, b))
    (hsize : res.size ≠ 0) :
    (env.fontAvailable = true → env.selected_locale = some (some "th-TH") →
      (env.right_to_left_mode = false → GetDialogTemplate env res = some (some b)) ∧
      (12 ≤ b.length → ∃ out, GetDialogTemplate env res = some (some out) ∧
        out.length = b.length ∧ ∀ j, j < 8 ∨ 12 ≤ j → out[j]? = b[j]?)) ∧
    (¬ (env.fontAvailable = true ∧ env.selected_locale = some (some "th-TH")) →
      GetDialogTemplate env res =
        (rtlStep env b).bind (fun b1 => (fontPatch start res.size b1).map some)) := by
  rw [GetDialogTemplate_eq env res start b hres hsize]
  constructor
  · intro hfont hloc
    have hthai : (env.fontAvailable && isThai env) = true := by
      rw [hfont, (isThai_iff env).mpr hloc]
      rfl
    simp only [hthai, if_true]
    constructor
    · intro hrtl
      simp [rtlStep, hrtl]
    · intro hlen
      obtain ⟨b1, hb1⟩ := rtlStep_isSome env b (fun _ => hlen)
      obtain ⟨h1, h2, _⟩ := rtlStep_spec env b b1 hb1
      exact ⟨b1, by simp [hb1], h1, h2⟩
  · intro hnot
    have hthai : ¬ (env.fontAvailable && isThai env) = true := by
      intro h
      rw [Bool.and_eq_true] at h
      exact hnot ⟨h.1, (isThai_iff env).mp h.2⟩
    simp [hthai]

theorem GetDialogTemplate_thai_exception_witness :
    ((sampleEnvThai true).fontAvailable = true ∧
      (sampleEnvThai true).selected_locale = some (some "th-TH") ∧
      12 ≤ sampleTemplate.length) ∧
    (∃ out, GetDialogTemplate (sampleEnvThai true) (sampleResource sampleTemplate)
        = some (some out) ∧ out.length = sampleTemplate.length ∧
        ∀ j, j < 8 ∨ 12 ≤ j → out[j]? = sampleTemplate[j]?) ∧
    GetDialogTemplate (sampleEnv true) (sampleResource sampleTemplate) =
      (rtlStep (sampleEnv true) sampleTemplate).bind
        (fun b1 => (fontPatch 0 (sampleResource sampleTemplate).size b1).map some) :=
  ⟨by decide,
    ((GetDialogTemplate_thai_exception (sampleEnvThai true) (sampleResource sampleTemplate) 0
      sampleTemplate rfl (by decide)).1 rfl rfl).2 (by decide),
    (GetDialogTemplate_thai_exception (sampleEnv true) (sampleResource sampleTemplate) 0
      sampleTemplate rfl (by decide)).2 (by decide)⟩

/-- C22, counterexample: on the reachable table holding tooltips for the
controls 5 and 6, a `CreateTooltip` call for control 5 whose tooltip window
cannot be created returns FALSE, and the table is not as before: the slot of
control 5 has been cleared and no slot holds control 5 any more. -/
theorem CreateTooltip_failure_loses_tooltip :
    sampleReachable = runCalls (emptyTable 3) sampleCalls ∧
      (∃ s ∈ sampleReachable, occupied s = true ∧ s.hCtrl = 5) ∧
      (CreateTooltip failingHost sampleReachable 5 (some "new") (-1)).1 = false ∧
      (CreateTooltip failingHost sampleReachable 5 (some "new") (-1)).2 ≠ sampleReachable ∧
      (∀ s ∈ (CreateTooltip failingHost sampleReachable 5 (some "new") (-1)).2, s.hCtrl ≠ 5) := by
  refine ⟨rfl, ⟨Attach.slot ⟨sampleHost 20, 5, "a", -1⟩, by decide, by decide, rfl⟩, ?_, ?_, ?_⟩
    <;> decide

/-- C22 as amended: whenever `CreateTooltip` returns FALSE, the table is exactly
as it was before the call if the control or the message is NULL, and otherwise
it is the table that `DestroyTooltip` for the control leaves: as before the
call except that the tooltip the control had, if any, is gone. In particular
the table is unchanged when the control had no tooltip. -/
theorem CreateTooltip_failure_table (host : TooltipHost) (ttlist : Table) (hControl : HWND)
    (message : Option String) (duration : Int)
    (hret : (CreateTooltip host ttlist hControl message duration).1 = false) :
    (CreateTooltip host ttlist hControl message duration).2
        = (if hControl = 0 ∨ message = none then ttlist else DestroyTooltip ttlist hControl) ∧
      ((∀ s ∈ ttlist, s.hCtrl ≠ hControl) →
        (CreateTooltip host ttlist hControl message duration).2 = ttlist) := by
  have hmain : (CreateTooltip host ttlist hControl message duration).2
      = (if hControl = 0 ∨ message = none then ttlist else DestroyTooltip ttlist hControl) := by
    cases message with
    | none => simp [CreateTooltip]
    | some msg =>
      rw [CreateTooltip_eq] at hret ⊢
      by_cases h0 : hControl = 0
      · simp [h0]
      · simp only [h0, if_false, false_or] at hret ⊢
        split_ifs at hret ⊢ <;> simp_all
  refine ⟨hmain, ?_⟩
  intro habs
  rw [hmain]
  split_ifs
  · rfl
  · exact DestroyTooltip_absent _ _ habs

theorem CreateTooltip_failure_table_witness :
    (CreateTooltip failingHost sampleReachable 5 (some "new") (-1)).1 = false ∧
      (CreateTooltip failingHost sampleReachable 5 (some "new") (-1)).2
        = (if (5 : HWND) = 0 ∨ (some "new" : Option String) = none then sampleReachable
           else DestroyTooltip sampleReachable 5) :=
  ⟨by decide,
    (CreateTooltip_failure_table failingHost sampleReachable 5 (some "new") (-1)
      (by decide)).1⟩

/-- C23: in every table reachable from the empty table by `CreateTooltip`,
`DestroyTooltip` and `DestroyAllTooltips`, with any host answers, the tooltip
handle of a slot is NULL if and only if its control is NULL: the search by
tooltip handle and the lookup by control agree on which slots are occupied. -/
theorem reachable_handle_null_iff_control_null (n : Nat) (calls : List TooltipCall)
    (s : TooltipSlot) (hs : s ∈ runCalls (emptyTable n) calls) :
    (s.hTip = 0 ↔ s.hCtrl = 0) ∧ (occupied s = true ↔ s.hCtrl ≠ 0) := by
  obtain ⟨h1, h2⟩ := (invariants_reachable n calls).1 s hs
  have hiff : s.hTip = 0 ↔ s.hCtrl = 0 := by
    constructor
    · intro h
      rw [h1 h]
      rfl
    · intro h
      by_contra hne
      exact h2 hne h
  refine ⟨hiff, ?_⟩
  simp only [occupied, bne_iff_ne, ne_eq]
  exact not_congr hiff

theorem reachable_handle_null_iff_control_null_witness :
    zeroSlot ∈ runCalls (emptyTable 3) sampleCalls ∧
      ((zeroSlot.hTip = 0 ↔ zeroSlot.hCtrl = 0) ∧
        (occupied zeroSlot = true ↔ zeroSlot.hCtrl ≠ 0)) :=
  ⟨by decide, reachable_handle_null_iff_control_null 3 sampleCalls zeroSlot (by decide)⟩

/-- C30: `CreateTooltip` returns FALSE and leaves the table unchanged whenever
the control is NULL or the message is NULL, for every table, host answer and
duration; the tooltip a control has is therefore still there after a call with
a NULL message. -/
theorem CreateTooltip_null_argument (host : TooltipHost) (ttlist : Table) (hControl : HWND)
    (message : Option String) (duration : Int) (hnull : hControl = 0 ∨ message = none) :
    CreateTooltip host ttlist hControl message duration = (false, ttlist) := by
  cases message with
  | none => rfl
  | some msg =>
    rcases hnull with h | h
    · simp [CreateTooltip, h]
    · exact absurd h (by simp)

theorem CreateTooltip_null_argument_witness :
    ((5 : HWND) = 0 ∨ (none : Option String) = none) ∧
      (∃ s ∈ sampleReachable, occupied s = true ∧ s.hCtrl = 5) ∧
      CreateTooltip failingHost sampleReachable 5 none 400 = (false, sampleReachable) :=
  ⟨Or.inr rfl, ⟨Attach.slot ⟨sampleHost 20, 5, "a", -1⟩, by decide, by decide, rfl⟩,
    CreateTooltip_null_argument failingHost sampleReachable 5 none 400 (Or.inr rfl)⟩

/-! ## Selection dialog: cancellation and the user name -/

/-- C24: the selection dialog ends with -1 on No and on Cancel whatever the
check states, and on OK, for at most 31 displayed choices, with a value that is
not negative, 0 when no choice is checked. -/
theorem selection_cancel_distinguishable (s : SelectionState) :
    CustomSelectionCallback_COMMAND s IDNO = some (-1) ∧
      CustomSelectionCallback_COMMAND s IDCANCEL = some (-1) ∧
      (s.nDialogItems ≤ 31 →
        (∃ v : Nat, CustomSelectionCallback_COMMAND s IDOK = some (v : Int)) ∧
        CustomSelectionCallback_COMMAND s IDOK ≠ some (-1) ∧
        ((∀ i, s.checked i = false) → CustomSelectionCallback_COMMAND s IDOK = some 0)) := by
  refine ⟨by simp [CustomSelectionCallback_COMMAND, IDNO, IDOK],
    by simp [CustomSelectionCallback_COMMAND, IDCANCEL, IDOK, IDNO], ?_⟩
  intro hn
  obtain ⟨v, hv, hsum, _⟩ := selection_COMMAND_OK s hn
  refine ⟨⟨v, hv⟩, ?_, ?_⟩
  · rw [hv]
    intro h
    have := Option.some.inj h
    omega
  · intro hnone
    have h0 : v = 0 := by
      rw [hsum]
      apply Finset.sum_eq_zero
      intro i _
      simp [hnone i]
    rw [hv, h0]
    rfl

theorem selection_cancel_distinguishable_witness :
    sampleSelection.nDialogItems ≤ 31 ∧
      CustomSelectionCallback_COMMAND sampleSelection IDCANCEL = some (-1) ∧
      CustomSelectionCallback_COMMAND sampleSelection IDOK ≠ some (-1) :=
  ⟨by decide, (selection_cancel_distinguishable sampleSelection).2.1,
    ((selection_cancel_distinguishable sampleSelection).2.2 (by decide)).2.1⟩

theorem strchrFound_invalid (ch : Nat) (h : ch ≠ 0) :
    strchrFound username_invalid_chars ch = decide (ch ∈ username_invalid_chars) := by
  unfold strchrFound
  have h0 : (ch == 0) = false := by simpa using h
  rw [h0, Bool.or_false]
  by_cases hm : ch ∈ username_invalid_chars
  · simp [hm]
  · simp [hm]

theorem sanitizeUsername_spec (text rest : List Nat) (htext : ∀ ch ∈ text, ch ≠ 0) :
    sanitizeUsername (text ++ 0 :: rest) = some (text.map replaceInvalid ++ 0 :: rest) := by
  induction text with
  | nil => simp [sanitizeUsername]
  | cons ch tl ih =>
    have hch : ch ≠ 0 := htext ch (List.mem_cons_self _ _)
    have htl := ih (fun x hx => htext x (List.mem_cons_of_mem _ hx))
    rw [List.cons_append, sanitizeUsername, if_neg hch, htl]
    simp [strchrFound_invalid ch hch, replaceInvalid]

theorem replaceInvalid_valid (ch : Nat) : replaceInvalid ch ∉ username_invalid_chars := by
  unfold replaceInvalid
  split_ifs with h
  · decide
  · exact h

theorem replaceInvalid_ne_zero (ch : Nat) (h : ch ≠ 0) : replaceInvalid ch ≠ 0 := by
  unfold replaceInvalid
  split_ifs
  · decide
  · exact h

/-- C25: on OK in a selection dialog that has a user name field, the stored user
name is the text read from the field in which every character of the set
`/ \ [ ] : ; | = , + * ? < > "` is replaced by `_` and every other character is
kept, the length being the same; the stored name holds none of these
characters and sanitising it again changes nothing. -/
theorem username_sanitized (index : Int) (text rest old : List Nat) (hidx : index ≠ -1)
    (htext : ∀ ch ∈ text, ch ≠ 0) :
    CustomSelectionCallback_username index (text ++ 0 :: rest) old
        = some (text.map replaceInvalid ++ 0 :: rest) ∧
      (text.map replaceInvalid).length = text.length ∧
      (∀ ch ∈ text.map replaceInvalid, ch ∉ username_invalid_chars) ∧
      CustomSelectionCallback_username index (text.map replaceInvalid ++ 0 :: rest) old
        = some (text.map replaceInvalid ++ 0 :: rest) := by
  have hvalid : ∀ ch ∈ text.map replaceInvalid, ch ∉ username_invalid_chars := by
    intro ch hch
    obtain ⟨x, _, hx⟩ := List.mem_map.mp hch
    rw [← hx]
    exact replaceInvalid_valid x
  have hnz : ∀ ch ∈ text.map replaceInvalid, ch ≠ 0 := by
    intro ch hch
    obtain ⟨x, hxm, hx⟩ := List.mem_map.mp hch
    rw [← hx]
    exact replaceInvalid_ne_zero x (htext x hxm)
  have hfix : (text.map replaceInvalid).map replaceInvalid = text.map replaceInvalid := by
    rw [List.map_map]
    apply List.map_congr_left
    intro x _
    simp only [Function.comp]
    by_cases hx : x ∈ username_invalid_chars
    · have h1 : replaceInvalid x = 95 := by simp [replaceInvalid, hx]
      rw [h1]
      decide
    · have h1 : replaceInvalid x = x := by simp [replaceInvalid, hx]
      rw [h1, h1]
  refine ⟨?_, by simp, hvalid, ?_⟩
  · simp only [CustomSelectionCallback_username, hidx, ne_eq, not_false_eq_true, if_true]
    exact sanitizeUsername_spec text rest htext
  · simp only [CustomSelectionCallback_username, hidx, ne_eq, not_false_eq_true, if_true]
    rw [sanitizeUsername_spec _ rest hnz, hfix]

theorem username_sanitized_witness :
    ((0 : Int) ≠ -1 ∧ ∀ ch ∈ [97, 47, 98, 58, 99], ch ≠ 0) ∧
      CustomSelectionCallback_username 0 sampleUsername [] = some [97, 95, 98, 95, 99, 0, 7, 7] ∧
      CustomSelectionCallback_username 0 ([97, 47, 98, 58, 99] ++ 0 :: [7, 7]) []
        = some ([97, 47, 98, 58, 99].map replaceInvalid ++ 0 :: [7, 7]) :=
  ⟨by decide, by decide,
    (username_sanitized 0 [97, 47, 98, 58, 99] [7, 7] [] (by decide) (by decide)).1⟩

/-! ## Notification dialog, counter of dialogs and download check -/

/-- C26: evaluation of `Notification` on its two early returns, a failed
allocation of the text and a NULL title (or a failed copy of the title): it
returns FALSE with the counter `dialog_showing` one higher than on entry.
On its other path, and in `FileDialog`, `CreateAboutBox`,
`CustomSelectionDialog` and `ListDialog`, the counter is the same on return. -/
theorem Notification_early_return_keeps_counter_raised (setting : String) (n : Int)
    (setting0 dont_display_setting title : Option String) (type : Int) (strdupOk : Bool)
    (id : Nat) (checked : Bool) (text : String) (extValid callocOk pfdNull : Bool) (hr : Int) :
    (Notification setting n setting0 true strdupOk type dont_display_setting none id
        checked).dialog_showing = n + 1 ∧
      (Notification setting n setting0 true strdupOk type dont_display_setting none id
        checked).ret = false ∧
      (Notification setting n setting0 false strdupOk type dont_display_setting title id
        checked).dialog_showing = n + 1 ∧
      (Notification setting n setting0 true true type dont_display_setting (some text) id
        checked).dialog_showing = n ∧
      FileDialog_showing n extValid callocOk hr pfdNull = n ∧
      CreateAboutBox_showing n = n ∧ CustomSelectionDialog_showing n = n ∧
      ListDialog_showing n = n := by
  refine ⟨?_, ?_, ?_, ?_, ?_, ?_, ?_, ?_⟩
  · cases strdupOk <;> simp [Notification]
  · cases strdupOk <;> simp [Notification]
  · simp [Notification]
  · simp [Notification]
  · unfold FileDialog_showing
    split_ifs <;> simp
  · simp [CreateAboutBox_showing]
  · simp [CustomSelectionDialog_showing]
  · simp [ListDialog_showing]

/-- C27: when its text and title allocations succeed, `Notification` returns
TRUE if and only if the dialog was dismissed with `IDYES`; with `IDOK`, `IDNO`
or `IDCANCEL` it returns FALSE, whatever the notification type. -/
theorem Notification_true_iff_yes (setting : String) (n : Int)
    (setting0 dont_display_setting : Option String) (type : Int) (title : String)
    (id : Nat) (checked : Bool) :
    ((Notification setting n setting0 true true type dont_display_setting (some title) id
        checked).ret = true ↔ id = IDYES) ∧
      (Notification setting n setting0 true true type dont_display_setting (some title) IDOK
        checked).ret = false ∧
      (Notification setting n setting0 true true type dont_display_setting (some title) IDNO
        checked).ret = false ∧
      (Notification setting n setting0 true true type dont_display_setting (some title)
        IDCANCEL checked).ret = false := by
  refine ⟨?_, ?_, ?_, ?_⟩
  · simp only [Notification, NotificationCallback_COMMAND, Bool.not_true, Bool.false_eq_true,
      if_false, Option.isNone_some, if_true, decide_eq_true_eq]
    constructor
    · intro h
      by_cases hid : id = IDOK ∨ id = IDCANCEL ∨ id = IDYES ∨ id = IDNO
      · rw [if_pos hid] at h
        have := Option.some.inj h
        exact Int.ofNat.inj this
      · rw [if_neg hid] at h
        exact absurd h (by simp)
    · intro h
      subst h
      simp [IDYES]
  · simp [Notification, NotificationCallback_COMMAND, IDOK, IDYES]
  · simp [Notification, NotificationCallback_COMMAND, IDNO, IDYES, IDOK, IDCANCEL]
  · simp [Notification, NotificationCallback_COMMAND, IDCANCEL, IDYES, IDOK]

/-- C28: evaluation of `Notification` dismissed with the box "don't display
again" checked: the setting written as TRUE is the fixed
`SETTING_DISABLE_SECURE_BOOT_NOTICE`, whatever name was passed as
`dont_display_setting`; with the box unchecked nothing is written. -/
theorem Notification_writes_fixed_setting (setting : String) (n : Int)
    (setting0 dont_display_setting : Option String) (type : Int) (title : String) :
    (Notification setting n setting0 true true type dont_display_setting (some title) IDOK
        true).written = [(setting, true)] ∧
      (Notification "DisableSecureBootNotice" n setting0 true true type (some "OtherNotice")
        (some title) IDOK true).written ≠ [("OtherNotice", true)] ∧
      (Notification setting n setting0 true true type dont_display_setting (some title) IDOK
        false).written = [] := by
  refine ⟨?_, ?_, ?_⟩
  · simp [Notification, NotificationCallback_COMMAND]
  · simp [Notification, NotificationCallback_COMMAND]
  · simp [Notification, NotificationCallback_COMMAND]

/-- C21: `CheckForFidoThread` entered with its flag `is_active` set returns -1
with no reachability probe made and the state (flag, style of the download
control, URL) as it was; entered with the flag clear it returns 0 with the flag
clear again, having made at most one probe. -/
theorem CheckForFidoThread_guard (url : String) (IsDownloadable : String → Bool)
    (s : FidoState) :
    (s.is_active = true →
      CheckForFidoThread url IsDownloadable s = (ofInt32 (-1), s, []) ∧
      toInt32 (CheckForFidoThread url IsDownloadable s).1 = -1) ∧
    (s.is_active = false →
      (CheckForFidoThread url IsDownloadable s).1 = 0 ∧
      (CheckForFidoThread url IsDownloadable s).2.1.is_active = false ∧
      (CheckForFidoThread url IsDownloadable s).2.2.length ≤ 1) := by
  constructor
  · intro h
    have hcall : CheckForFidoThread url IsDownloadable s = (ofInt32 (-1), s, []) := by
      simp [CheckForFidoThread, h]
    rw [hcall]
    refine ⟨rfl, ?_⟩
    show toInt32 (ofInt32 (-1)) = -1
    decide
  · intro h
    simp only [CheckForFidoThread, h, Bool.false_eq_true, if_false]
    split_ifs <;> simp

theorem CheckForFidoThread_guard_witness :
    (CheckForFidoThread "https://github.com/Smu1zel/Whitebar/x" (fun _ => true)
        { is_active := true, style := 1, fido_url := none }
      = (ofInt32 (-1), { is_active := true, style := 1, fido_url := none }, [])) ∧
    (CheckForFidoThread "https://github.com/Smu1zel/Whitebar/x" (fun _ => true)
        { is_active := false, style := 1, fido_url := none }).2.1.is_active = false :=
  ⟨((CheckForFidoThread_guard "https://github.com/Smu1zel/Whitebar/x" (fun _ => true)
      { is_active := true, style := 1, fido_url := none }).1 rfl).1,
    ((CheckForFidoThread_guard "https://github.com/Smu1zel/Whitebar/x" (fun _ => true)
      { is_active := false, style := 1, fido_url := none }).2 rfl).2.1⟩

/-! ## Tooltip callback: which handles are delegated -/

end Rufus
